import Mathlib

/-!
Verification development for the D-Bus SASL handshake state machines of
`src/zbus/src/handshake.rs` (client and server side).

The code is shallowly embedded: byte strings become `List Nat` (byte values /
Unicode code points), the socket becomes an explicit trace of read/write
results that the state machine consumes, and each Rust method becomes a Lean
function over an explicit state record.  Machine integers (`u32` uids) are
`Nat` with explicit `< 2 ^ 32` bounds where the code's `u32` range matters.
-/

namespace Zbus

/-- Code points of a Lean string literal; used to transcribe the ASCII
protocol constants of the source (`b"REJECTED EXTERNAL\r\n"` etc.). -/
def strToCps (s : String) : List Nat := s.data.map Char.toNat

/-- Unicode white space, the exact set recognised by Rust's
`char::is_whitespace` (the Unicode `White_Space` property), which
`str::split_whitespace` splits on. -/
def isWs (c : Nat) : Bool :=
  c = 0x9 ∨ c = 0xA ∨ c = 0xB ∨ c = 0xC ∨ c = 0xD ∨ c = 0x20 ∨
  c = 0x85 ∨ c = 0xA0 ∨ c = 0x1680 ∨
  (0x2000 ≤ c ∧ c ≤ 0x200A) ∨
  c = 0x2028 ∨ c = 0x2029 ∨ c = 0x202F ∨ c = 0x205F ∨ c = 0x3000

/-- Accumulator-style worker for `splitWs`: `cur` holds the reversed
characters of the word currently being scanned. -/
def splitWsAux : List Nat → List Nat → List (List Nat)
  | cur, [] => if cur = [] then [] else [cur.reverse]
  | cur, c :: rest =>
    if isWs c then
      if cur = [] then splitWsAux [] rest
      else cur.reverse :: splitWsAux [] rest
    else splitWsAux (c :: cur) rest

/-- Model of Rust's `str::split_whitespace` over code points: the list of
maximal nonempty runs of non-whitespace characters. -/
def splitWs (l : List Nat) : List (List Nat) := splitWsAux [] l

/-- The byte prefix a `BufRead::read_line` call consumes from a byte slice:
everything up to and including the first LF byte, or the whole slice if no
LF occurs. -/
def takeUntilNl : List Nat → List Nat
  | [] => []
  | c :: rest => if c = 10 then [c] else c :: takeUntilNl rest

/-- Is `b` a UTF-8 continuation byte (`0x80 ..= 0xBF`)? -/
def contB (b : Nat) : Bool := 0x80 ≤ b ∧ b ≤ 0xBF

/-- Decode one UTF-8 sequence whose lead byte is `b` and whose following
bytes start `rest`: the decoded code point and the bytes remaining after
the sequence, or `none` for an ill-formed sequence.  The lead/continuation
ranges are exactly those accepted by Rust's `str::from_utf8` (rejecting
overlong forms, surrogates and values above `0x10FFFF`). -/
def utf8Step (b : Nat) (rest : List Nat) : Option (Nat × List Nat) :=
  if b < 0x80 then some (b, rest)
  else if 0xC2 ≤ b ∧ b ≤ 0xDF then
    match rest with
    | b2 :: rest2 =>
      if contB b2 then some ((b - 0xC0) * 0x40 + (b2 - 0x80), rest2) else none
    | [] => none
  else if 0xE0 ≤ b ∧ b ≤ 0xEF then
    match rest with
    | b2 :: b3 :: rest3 =>
      if (if b = 0xE0 then 0xA0 ≤ b2 ∧ b2 ≤ 0xBF
          else if b = 0xED then 0x80 ≤ b2 ∧ b2 ≤ 0x9F
          else contB b2) ∧ contB b3 then
        some ((b - 0xE0) * 0x1000 + (b2 - 0x80) * 0x40 + (b3 - 0x80), rest3)
      else none
    | _ => none
  else if 0xF0 ≤ b ∧ b ≤ 0xF4 then
    match rest with
    | b2 :: b3 :: b4 :: rest4 =>
      if (if b = 0xF0 then 0x90 ≤ b2 ∧ b2 ≤ 0xBF
          else if b = 0xF4 then 0x80 ≤ b2 ∧ b2 ≤ 0x8F
          else contB b2) ∧ contB b3 ∧ contB b4 then
        some ((b - 0xF0) * 0x40000 + (b2 - 0x80) * 0x1000 +
              (b3 - 0x80) * 0x40 + (b4 - 0x80), rest4)
      else none
    | _ => none
  else none

/-- UTF-8 decoding loop with explicit fuel; each sequence consumes at least
its lead byte, so fuel equal to the list length (as supplied by
`utf8Decode`) never runs out. -/
def utf8DecodeAux : Nat → List Nat → Option (List Nat)
  | _, [] => some []
  | 0, _ :: _ => none
  | fuel + 1, b :: rest =>
    match utf8Step b rest with
    | none => none
    | some (c, rest2) =>
      match utf8DecodeAux fuel rest2 with
      | some cs => some (c :: cs)
      | none => none

/-- Exact UTF-8 decoding of a byte list to code points, as Rust's
`str::from_utf8` performs inside `read_line`. -/
def utf8Decode (l : List Nat) : Option (List Nat) := utf8DecodeAux l.length l

/-- The transport error kinds the handshake distinguishes: the would-block
condition (`io::ErrorKind::WouldBlock`), the invalid-data error raised by
`read_line` on non-UTF-8 input, and any other I/O error. -/
inductive IoErrKind where
  | wouldBlock
  | invalidData
  | other (code : Nat)
  deriving DecidableEq

/-- The crate error type as seen by the handshake: an I/O error or a fatal
`Error::Handshake` protocol violation with its message. -/
inductive Error where
  | Io (e : IoErrKind)
  | Handshake (msg : String)
  deriving DecidableEq

deriving instance DecidableEq for Except

/-- `(&buf[..]).read_line(&mut reply)`: take bytes up to and including the
first LF and validate them as UTF-8, failing with an invalid-data I/O
error exactly when they are not valid UTF-8. -/
def readLine (buf : List Nat) : Except Error (List Nat) :=
  match utf8Decode (takeUntilNl buf) with
  | some cs => .ok cs
  | none => .error (.Io .invalidData)

/-- One result of a `sendmsg` call on the socket, as recorded in the write
trace: either the number of bytes the socket accepted, or an I/O error. -/
inductive WriteRes where
  | wrote (n : Nat)
  | wErr (e : IoErrKind)
  deriving DecidableEq

/-- One result of a `recvmsg` call on the socket, as recorded in the read
trace: either the bytes delivered, or an I/O error. -/
inductive ReadRes where
  | received (bytes : List Nat)
  | rErr (e : IoErrKind)
  deriving DecidableEq

/-- Outcome kind of a `flush_buffer` run. -/
inductive FlushRes where
  | ok
  | ioErr (e : IoErrKind)
  | starved
  | panicked
  deriving DecidableEq

/-- Full outcome of a `flush_buffer` run: outcome kind, the bytes actually
handed to (and accepted by) the socket, the buffer contents left behind,
and the unconsumed tail of the write trace. -/
structure FlushOut where
  res : FlushRes
  sent : List Nat
  buffer : List Nat
  ws : List WriteRes
  deriving DecidableEq

/-- `flush_buffer` (identical in `ClientHandshake` and `ServerHandshake`,
lines 60-66 and 239-245): while the buffer is nonempty, call `sendmsg` and
drain the accepted count from the front.  `panicked` models
`Vec::drain(..written)` with `written` beyond the buffer length, which a
conforming socket never reports; `starved` means the finite trace supplied
no further write results. -/
def flush_buffer : List Nat → List WriteRes → FlushOut
  | [], ws => ⟨.ok, [], [], ws⟩
  | buf, [] => ⟨.starved, [], buf, []⟩
  | buf, .wrote n :: ws =>
    if n ≤ buf.length then
      let o := flush_buffer (buf.drop n) ws
      ⟨o.res, buf.take n ++ o.sent, o.buffer, o.ws⟩
    else ⟨.panicked, [], buf, ws⟩
  | buf, .wErr e :: ws => ⟨.ioErr e, [], buf, ws⟩

/-- Outcome kind of a `read_command` run. -/
inductive RcRes where
  | ok
  | ioErr (e : IoErrKind)
  | starved
  deriving DecidableEq

/-- Full outcome of a `read_command` run: outcome kind, the accumulated
buffer, and the unconsumed tail of the read trace. -/
structure ReadOut where
  res : RcRes
  buffer : List Nat
  rs : List ReadRes
  deriving DecidableEq

/-- `read_command` (identical in `ClientHandshake` and `ServerHandshake`,
lines 68-75 and 247-254): while the buffer does not end with CRLF, call
`recvmsg` and append the delivered bytes. -/
def read_command (buf : List Nat) (rs : List ReadRes) : ReadOut :=
  if ([13, 10] : List Nat).isSuffixOf buf then ⟨.ok, buf, rs⟩
  else
    match rs with
    | [] => ⟨.starved, buf, []⟩
    | .received b :: rest => read_command (buf ++ b) rest
    | .rErr e :: rest => ⟨.ioErr e, buf, rest⟩

/-
 * uid textual encoding (client, lines 90-94) and its inverse.
 -/

/-- Little-endian base-10 digits of `n`, with an explicit fuel argument
(`fuel ≥ n` suffices) so that the definition is structurally recursive
and kernel-evaluable. -/
def decDigitsAux : Nat → Nat → List Nat
  | 0, _ => []
  | _, 0 => []
  | fuel + 1, n + 1 => (n + 1) % 10 :: decDigitsAux fuel ((n + 1) / 10)

/-- The code points of Rust's `u32::to_string()` of `n`: the decimal
representation, most significant digit first (`0` renders as `"0"`). -/
def decimalString (n : Nat) : List Nat :=
  if n = 0 then [48] else ((decDigitsAux n n).map (fun d => 48 + d)).reverse

/-- The lowercase hex digit character code for `d < 16`, as produced by
Rust's `format!("\x7b:x\x7d", _)`. -/
def hexDigitChar (d : Nat) : Nat := if d < 10 then 48 + d else 87 + d

/-- Code points of `format!("\x7b:x\x7d", b)` for a byte value `b < 256`:
minimal-width lowercase hex. -/
def hexByte (b : Nat) : List Nat :=
  if b < 16 then [hexDigitChar b] else [hexDigitChar (b / 16), hexDigitChar (b % 16)]

/-- The client's uid encoding (lines 90-94): each character of the uid's
decimal string rendered as the hex of its own code point, concatenated. -/
def uidEncode (uid : Nat) : List Nat := ((decimalString uid).map hexByte).flatten

/-- Value of a hex digit character code (both cases accepted, as by Rust's
`u8::from_str_radix(_, 16)`). -/
def hexDigitVal (c : Nat) : Option Nat :=
  if 48 ≤ c ∧ c ≤ 57 then some (c - 48)
  else if 97 ≤ c ∧ c ≤ 102 then some (c - 87)
  else if 65 ≤ c ∧ c ≤ 70 then some (c - 55)
  else none

/-- Decode a string of hex digit pairs into the list of the byte values the
pairs denote; fails on a non-hex character or an odd-length input. -/
def hexPairsDecode : List Nat → Option (List Nat)
  | [] => some []
  | [_] => none
  | c1 :: c2 :: rest =>
    match hexDigitVal c1, hexDigitVal c2, hexPairsDecode rest with
    | some h, some l, some r => some ((h * 16 + l) :: r)
    | _, _, _ => none

/-- Parse a character-code list as the decimal representation of a `u32`:
nonempty, all decimal digits, value below `2 ^ 32`. -/
def parseDecDigits (cps : List Nat) : Option Nat :=
  if cps = [] then none
  else if cps.all (fun c => 48 ≤ c ∧ c ≤ 57) then
    let v := cps.foldl (fun a c => a * 10 + (c - 48)) 0
    if v < 2 ^ 32 then some v else none
  else none

/-- Modelled from the spec: `connection::id_from_str` (the file
`src/zbus/src/connection.rs` is not part of this source tree).  Per the
spec it is the exact inverse of the client's uid encoding: "parse `<uid>`
as a numeric id using the same decimal-from-hex-pairs decoding used by the
client's encoder" — pairs of hex digits are decoded to character codes,
which must form the decimal representation of a numeric (`u32`) uid.
The source wraps its failure in `Error::Handshake("Invalid UID: ..")`; the
model elides the inner message. -/
def id_from_str (cps : List Nat) : Option Nat :=
  match hexPairsDecode cps with
  | some chars => parseDecDigits chars
  | none => none

/-
 * Client-side handshake state machine.
 -/

/-- `ClientHandshakeStep` (lines 19-27). -/
inductive ClientHandshakeStep where
  | Init
  | SendingOauth
  | WaitOauth
  | SendingNegociateFd
  | WaitNegociateFd
  | SendingBegin
  | Done
  deriving DecidableEq

/-- `ClientHandshake` (lines 30-36); the socket is modelled as an opaque
handle, the server guid as the code points of its textual form. -/
structure ClientHandshake where
  socket : Nat
  buffer : List Nat
  step : ClientHandshakeStep
  server_guid : Option (List Nat)
  cap_unix_fd : Bool
  deriving DecidableEq

/-- `ClientHandshake::new` (lines 50-58). -/
def ClientHandshake.new (socket : Nat) : ClientHandshake :=
  ⟨socket, [], .Init, none, false⟩

/-- `InitializedClient` (lines 39-46); `cx` is the raw connection wrapping
the socket handle. -/
structure InitializedClient where
  cx : Nat
  server_guid : List Nat
  cap_unix_fd : Bool
  deriving DecidableEq

/-- Result of `ClientHandshake::try_finish`; `panicked` models the
`Option::unwrap` of `server_guid` on a `Done` state that never stored a
guid. -/
inductive ClientFinish where
  | ok (r : InitializedClient)
  | err (h : ClientHandshake)
  | panicked
  deriving DecidableEq

/-- `ClientHandshake::try_finish` (lines 151-161). -/
def ClientHandshake.try_finish (h : ClientHandshake) : ClientFinish :=
  match h.step with
  | .Done =>
    match h.server_guid with
    | some g => .ok ⟨h.socket, g, h.cap_unix_fd⟩
    | none => .panicked
  | _ => .err h

/-- A client configuration: the handshake state plus the socket's remaining
write and read traces. -/
structure ClientCfg where
  hs : ClientHandshake
  ws : List WriteRes
  rs : List ReadRes
  deriving DecidableEq

/-- Outcome kind of one iteration of the `advance_handshake` loop. -/
inductive IterKind where
  | next
  | finished
  | failed (e : Error)
  | starved
  | panicked
  deriving DecidableEq

/-- Outcome of one iteration of the client loop: kind, updated
configuration, and the bytes transmitted during the iteration. -/
structure ClientIterOut where
  k : IterKind
  cfg : ClientCfg
  sent : List Nat
  deriving DecidableEq

/-- Modelled from the spec: `Guid::try_from(&str)` (the `Guid` type lives
in `src/zbus/src/guid.rs`, which is not part of this source tree).  The
spec treats the bus identifier as "an opaque token parsed from / rendered
to a canonical textual form" and gives no concrete validation rule, so
the model parses any word to the token holding its text. -/
def Guid.try_from (w : List Nat) : Option (List Nat) := some w

/-- The `WaitOauth` parsing (lines 104-116): `read_line` the buffer, split
into whitespace-separated words, and accept exactly `OK <guid>`, returning
the parsed guid; any other shape (or, per the spec, an unparsable
identifier) is a fatal protocol violation. -/
def processOauthLine (buf : List Nat) : Except Error (List Nat) :=
  match readLine buf with
  | .error e => .error e
  | .ok cs =>
    match splitWs cs with
    | [a, g] =>
      if a = strToCps "OK" then
        match Guid.try_from g with
        | some gg => .ok gg
        | none => .error (.Handshake "Unexpected server AUTH reply")
      else .error (.Handshake "Unexpected server AUTH reply")
    | _ => .error (.Handshake "Unexpected server AUTH reply")

/-- Shared shape of the three client sending steps: flush the buffer and,
on success, move to `nextStep`.  On failure the step is unchanged and the
partially drained buffer is kept, exactly as the source leaves `self`. -/
def clientFlushStep (c : ClientCfg) (nextStep : ClientHandshakeStep) : ClientIterOut :=
  let f := flush_buffer c.hs.buffer c.ws
  match f.res with
  | .ok =>
    ⟨.next, ⟨⟨c.hs.socket, [], nextStep, c.hs.server_guid, c.hs.cap_unix_fd⟩, f.ws, c.rs⟩, f.sent⟩
  | .ioErr e =>
    ⟨.failed (.Io e), ⟨⟨c.hs.socket, f.buffer, c.hs.step, c.hs.server_guid, c.hs.cap_unix_fd⟩, f.ws, c.rs⟩, f.sent⟩
  | .starved =>
    ⟨.starved, ⟨⟨c.hs.socket, f.buffer, c.hs.step, c.hs.server_guid, c.hs.cap_unix_fd⟩, f.ws, c.rs⟩, f.sent⟩
  | .panicked =>
    ⟨.panicked, ⟨⟨c.hs.socket, f.buffer, c.hs.step, c.hs.server_guid, c.hs.cap_unix_fd⟩, f.ws, c.rs⟩, f.sent⟩

/-- One iteration of the `loop` in `ClientHandshake::advance_handshake`
(lines 85-145).  `uid` models the ambient `Uid::current()`. -/
def clientIter (uid : Nat) (c : ClientCfg) : ClientIterOut :=
  match c.hs.step with
  | .Init =>
    ⟨.next,
      ⟨⟨c.hs.socket,
        0 :: (strToCps "AUTH EXTERNAL " ++ uidEncode uid ++ strToCps "\r\n"),
        .SendingOauth, c.hs.server_guid, c.hs.cap_unix_fd⟩, c.ws, c.rs⟩, []⟩
  | .SendingOauth => clientFlushStep c .WaitOauth
  | .WaitOauth =>
    let r := read_command c.hs.buffer c.rs
    match r.res with
    | .ioErr e =>
      ⟨.failed (.Io e), ⟨⟨c.hs.socket, r.buffer, .WaitOauth, c.hs.server_guid, c.hs.cap_unix_fd⟩, c.ws, r.rs⟩, []⟩
    | .starved =>
      ⟨.starved, ⟨⟨c.hs.socket, r.buffer, .WaitOauth, c.hs.server_guid, c.hs.cap_unix_fd⟩, c.ws, r.rs⟩, []⟩
    | .ok =>
      match processOauthLine r.buffer with
      | .error e =>
        ⟨.failed e, ⟨⟨c.hs.socket, r.buffer, .WaitOauth, c.hs.server_guid, c.hs.cap_unix_fd⟩, c.ws, r.rs⟩, []⟩
      | .ok g =>
        ⟨.next, ⟨⟨c.hs.socket, strToCps "NEGOTIATE_UNIX_FD\r\n", .SendingNegociateFd, some g, c.hs.cap_unix_fd⟩, c.ws, r.rs⟩, []⟩
  | .SendingNegociateFd => clientFlushStep c .WaitNegociateFd
  | .WaitNegociateFd =>
    let r := read_command c.hs.buffer c.rs
    match r.res with
    | .ioErr e =>
      ⟨.failed (.Io e), ⟨⟨c.hs.socket, r.buffer, .WaitNegociateFd, c.hs.server_guid, c.hs.cap_unix_fd⟩, c.ws, r.rs⟩, []⟩
    | .starved =>
      ⟨.starved, ⟨⟨c.hs.socket, r.buffer, .WaitNegociateFd, c.hs.server_guid, c.hs.cap_unix_fd⟩, c.ws, r.rs⟩, []⟩
    | .ok =>
      if (strToCps "AGREE_UNIX_FD").isPrefixOf r.buffer then
        ⟨.next, ⟨⟨c.hs.socket, strToCps "BEGIN\r\n", .SendingBegin, c.hs.server_guid, true⟩, c.ws, r.rs⟩, []⟩
      else if (strToCps "ERROR").isPrefixOf r.buffer then
        ⟨.next, ⟨⟨c.hs.socket, strToCps "BEGIN\r\n", .SendingBegin, c.hs.server_guid, false⟩, c.ws, r.rs⟩, []⟩
      else
        ⟨.failed (.Handshake "Unexpected server UNIX_FD reply"),
          ⟨⟨c.hs.socket, r.buffer, .WaitNegociateFd, c.hs.server_guid, c.hs.cap_unix_fd⟩, c.ws, r.rs⟩, []⟩
  | .SendingBegin => clientFlushStep c .Done
  | .Done => ⟨.finished, c, []⟩

/-- Outcome kind of a full `advance_handshake` call. -/
inductive AdvanceKind where
  | ok
  | err (e : Error)
  | starved
  | panicked
  | outOfFuel
  deriving DecidableEq

/-- Outcome of a full client `advance_handshake` call. -/
structure ClientAdvanceOut where
  k : AdvanceKind
  cfg : ClientCfg
  deriving DecidableEq

/-- `ClientHandshake::advance_handshake` (lines 85-145): iterate the loop
body until it returns (`Ok` on `Done`, or an error), with explicit fuel
bounding the number of loop iterations. -/
def ClientHandshake.advance_handshake (uid : Nat) : Nat → ClientCfg → ClientAdvanceOut
  | 0, c => ⟨.outOfFuel, c⟩
  | fuel + 1, c =>
    let o := clientIter uid c
    match o.k with
    | .next => ClientHandshake.advance_handshake uid fuel o.cfg
    | .finished => ⟨.ok, o.cfg⟩
    | .failed e => ⟨.err e, o.cfg⟩
    | .starved => ⟨.starved, o.cfg⟩
    | .panicked => ⟨.panicked, o.cfg⟩

/-
 * Server-side handshake state machine.
 -/

/-- `ServerHandshakeStep` (lines 197-205). -/
inductive ServerHandshakeStep where
  | WaitingForNull
  | WaitingForAuth
  | SendingAuthOK
  | SendingAuthError
  | WaitingForBegin
  | SendingBeginMessage
  | Done
  deriving DecidableEq

/-- `ServerHandshake` (lines 208-215); the socket is an opaque handle and
the guid the code points of its textual form. -/
structure ServerHandshake where
  socket : Nat
  buffer : List Nat
  step : ServerHandshakeStep
  server_guid : List Nat
  cap_unix_fd : Bool
  client_uid : Nat
  deriving DecidableEq

/-- `ServerHandshake::new` (lines 228-237). -/
def ServerHandshake.new (socket : Nat) (guid : List Nat) (client_uid : Nat) : ServerHandshake :=
  ⟨socket, [], .WaitingForNull, guid, false, client_uid⟩

/-- `InitializedServer` (lines 218-225). -/
structure InitializedServer where
  cx : Nat
  server_guid : List Nat
  cap_unix_fd : Bool
  deriving DecidableEq

/-- Result of `ServerHandshake::try_finish`. -/
inductive ServerFinish where
  | ok (r : InitializedServer)
  | err (h : ServerHandshake)
  deriving DecidableEq

/-- `ServerHandshake::try_finish` (lines 360-370). -/
def ServerHandshake.try_finish (h : ServerHandshake) : ServerFinish :=
  match h.step with
  | .Done => .ok ⟨h.socket, h.server_guid, h.cap_unix_fd⟩
  | _ => .err h

/-- A server configuration: handshake state plus the socket's traces. -/
structure ServerCfg where
  hs : ServerHandshake
  ws : List WriteRes
  rs : List ReadRes
  deriving DecidableEq

/-- Outcome of one iteration of the server loop. -/
structure ServerIterOut where
  k : IterKind
  cfg : ServerCfg
  sent : List Nat
  deriving DecidableEq

/-- The non-`AUTH EXTERNAL <uid>` arms of the `WaitingForAuth` match
(lines 296-308), in the source's pattern order: a line starting `AUTH` or
`ERROR` is rejected (retry), a bare `BEGIN` is a fatal violation, anything
else draws `ERROR Unsupported command` (retry). -/
def authOther (ws : List (List Nat)) : Except Error (List Nat × ServerHandshakeStep) :=
  if ws.head? = some (strToCps "AUTH") ∨ ws.head? = some (strToCps "ERROR") then
    .ok (strToCps "REJECTED EXTERNAL\r\n", .SendingAuthError)
  else if ws = [strToCps "BEGIN"] then
    .error (.Handshake "Received BEGIN while not authenticated")
  else
    .ok (strToCps "ERROR Unsupported command\r\n", .SendingAuthError)

/-- The word-level `WaitingForAuth` match (lines 284-309): on exactly
`AUTH EXTERNAL <uid>` decode the uid (failure is fatal, via the `?` on
`id_from_str`) and compare with the expected uid; otherwise fall through
to `authOther`.  Returns the composed reply and the next step. -/
def processAuthWords (exp : Nat) (guid : List Nat) (ws : List (List Nat)) :
    Except Error (List Nat × ServerHandshakeStep) :=
  match ws with
  | [a, b, u] =>
    if a = strToCps "AUTH" ∧ b = strToCps "EXTERNAL" then
      match id_from_str u with
      | none => .error (.Handshake "Invalid UID")
      | some uid =>
        if uid = exp then
          .ok (strToCps "OK " ++ guid ++ strToCps "\r\n", .SendingAuthOK)
        else
          .ok (strToCps "REJECTED EXTERNAL\r\n", .SendingAuthError)
    else authOther [a, b, u]
  | ws => authOther ws

/-- The `WaitingForAuth` line handling (lines 281-309): `read_line` the
buffer, split it into whitespace-separated words, and dispatch on them. -/
def processAuthLine (exp : Nat) (guid : List Nat) (buf : List Nat) :
    Except Error (List Nat × ServerHandshakeStep) :=
  match readLine buf with
  | .error e => .error e
  | .ok cs => processAuthWords exp guid (splitWs cs)

/-- Result of the `WaitingForBegin` line handling: either the `BEGIN`
transition to `Done` (which composes no reply and leaves the buffer
untouched), or a composed reply with the next step and whether
`cap_unix_fd` is set. -/
inductive BeginOut where
  | done
  | reply (buf : List Nat) (st : ServerHandshakeStep) (setCap : Bool)
  deriving DecidableEq

/-- The word-level `WaitingForBegin` match (lines 324-345), in the
source's pattern order. -/
def processBeginWords (ws : List (List Nat)) : BeginOut :=
  if ws = [strToCps "BEGIN"] then .done
  else if ws = [strToCps "CANCEL"] then
    .reply (strToCps "REJECTED EXTERNAL\r\n") .SendingAuthError false
  else if ws.head? = some (strToCps "ERROR") then
    .reply (strToCps "REJECTED EXTERNAL\r\n") .SendingAuthError false
  else if ws = [strToCps "NEGOTIATE_UNIX_FD"] then
    .reply (strToCps "AGREE_UNIX_FD\r\n") .SendingBeginMessage true
  else
    .reply (strToCps "ERROR Unsupported command\r\n") .SendingBeginMessage false

/-- The `WaitingForBegin` line handling (lines 321-345): `read_line` the
buffer, split it into words, and dispatch on them. -/
def processBeginLine (buf : List Nat) : Except Error BeginOut :=
  match readLine buf with
  | .error e => .error e
  | .ok cs => .ok (processBeginWords (splitWs cs))

/-- Shared shape of the three server sending steps: flush and, on success,
move to `nextStep`. -/
def serverFlushStep (c : ServerCfg) (nextStep : ServerHandshakeStep) : ServerIterOut :=
  let f := flush_buffer c.hs.buffer c.ws
  match f.res with
  | .ok =>
    ⟨.next, ⟨⟨c.hs.socket, [], nextStep, c.hs.server_guid, c.hs.cap_unix_fd, c.hs.client_uid⟩, f.ws, c.rs⟩, f.sent⟩
  | .ioErr e =>
    ⟨.failed (.Io e), ⟨⟨c.hs.socket, f.buffer, c.hs.step, c.hs.server_guid, c.hs.cap_unix_fd, c.hs.client_uid⟩, f.ws, c.rs⟩, f.sent⟩
  | .starved =>
    ⟨.starved, ⟨⟨c.hs.socket, f.buffer, c.hs.step, c.hs.server_guid, c.hs.cap_unix_fd, c.hs.client_uid⟩, f.ws, c.rs⟩, f.sent⟩
  | .panicked =>
    ⟨.panicked, ⟨⟨c.hs.socket, f.buffer, c.hs.step, c.hs.server_guid, c.hs.cap_unix_fd, c.hs.client_uid⟩, f.ws, c.rs⟩, f.sent⟩

/-- One iteration of the `loop` in `ServerHandshake::advance_handshake`
(lines 264-354).  In `WaitingForNull` the local one-byte receive buffer is
zero-initialized (`[0; 1]`), so when `recvmsg` delivers no bytes the
inspected byte is `0`; the source's `debug_assert!(read == 1)` is compiled
out in release builds and is modelled as a no-op. -/
def serverIter (c : ServerCfg) : ServerIterOut :=
  match c.hs.step with
  | .WaitingForNull =>
    match c.rs with
    | [] => ⟨.starved, c, []⟩
    | .rErr e :: rest =>
      ⟨.failed (.Io e), ⟨c.hs, c.ws, rest⟩, []⟩
    | .received b :: rest =>
      if b.headD 0 ≠ 0 then
        ⟨.failed (.Handshake "First client byte is not NUL!"), ⟨c.hs, c.ws, rest⟩, []⟩
      else
        ⟨.next, ⟨⟨c.hs.socket, c.hs.buffer, .WaitingForAuth, c.hs.server_guid, c.hs.cap_unix_fd, c.hs.client_uid⟩, c.ws, rest⟩, []⟩
  | .WaitingForAuth =>
    let r := read_command c.hs.buffer c.rs
    match r.res with
    | .ioErr e =>
      ⟨.failed (.Io e), ⟨⟨c.hs.socket, r.buffer, .WaitingForAuth, c.hs.server_guid, c.hs.cap_unix_fd, c.hs.client_uid⟩, c.ws, r.rs⟩, []⟩
    | .starved =>
      ⟨.starved, ⟨⟨c.hs.socket, r.buffer, .WaitingForAuth, c.hs.server_guid, c.hs.cap_unix_fd, c.hs.client_uid⟩, c.ws, r.rs⟩, []⟩
    | .ok =>
      match processAuthLine c.hs.client_uid c.hs.server_guid r.buffer with
      | .error e =>
        ⟨.failed e, ⟨⟨c.hs.socket, r.buffer, .WaitingForAuth, c.hs.server_guid, c.hs.cap_unix_fd, c.hs.client_uid⟩, c.ws, r.rs⟩, []⟩
      | .ok (nbuf, nstep) =>
        ⟨.next, ⟨⟨c.hs.socket, nbuf, nstep, c.hs.server_guid, c.hs.cap_unix_fd, c.hs.client_uid⟩, c.ws, r.rs⟩, []⟩
  | .SendingAuthError => serverFlushStep c .WaitingForAuth
  | .SendingAuthOK => serverFlushStep c .WaitingForBegin
  | .WaitingForBegin =>
    let r := read_command c.hs.buffer c.rs
    match r.res with
    | .ioErr e =>
      ⟨.failed (.Io e), ⟨⟨c.hs.socket, r.buffer, .WaitingForBegin, c.hs.server_guid, c.hs.cap_unix_fd, c.hs.client_uid⟩, c.ws, r.rs⟩, []⟩
    | .starved =>
      ⟨.starved, ⟨⟨c.hs.socket, r.buffer, .WaitingForBegin, c.hs.server_guid, c.hs.cap_unix_fd, c.hs.client_uid⟩, c.ws, r.rs⟩, []⟩
    | .ok =>
      match processBeginLine r.buffer with
      | .error e =>
        ⟨.failed e, ⟨⟨c.hs.socket, r.buffer, .WaitingForBegin, c.hs.server_guid, c.hs.cap_unix_fd, c.hs.client_uid⟩, c.ws, r.rs⟩, []⟩
      | .ok .done =>
        ⟨.next, ⟨⟨c.hs.socket, r.buffer, .Done, c.hs.server_guid, c.hs.cap_unix_fd, c.hs.client_uid⟩, c.ws, r.rs⟩, []⟩
      | .ok (.reply nbuf nstep setCap) =>
        ⟨.next, ⟨⟨c.hs.socket, nbuf, nstep, c.hs.server_guid, c.hs.cap_unix_fd || setCap, c.hs.client_uid⟩, c.ws, r.rs⟩, []⟩
  | .SendingBeginMessage => serverFlushStep c .WaitingForBegin
  | .Done => ⟨.finished, c, []⟩

/-- Outcome of a full server `advance_handshake` call. -/
structure ServerAdvanceOut where
  k : AdvanceKind
  cfg : ServerCfg
  deriving DecidableEq

/-- `ServerHandshake::advance_handshake` (lines 264-354): iterate the loop
body until it returns, with explicit fuel bounding the iterations. -/
def ServerHandshake.advance_handshake : Nat → ServerCfg → ServerAdvanceOut
  | 0, c => ⟨.outOfFuel, c⟩
  | fuel + 1, c =>
    let o := serverIter c
    match o.k with
    | .next => ServerHandshake.advance_handshake fuel o.cfg
    | .finished => ⟨.ok, o.cfg⟩
    | .failed e => ⟨.err e, o.cfg⟩
    | .starved => ⟨.starved, o.cfg⟩
    | .panicked => ⟨.panicked, o.cfg⟩

/-
 * Blocking drivers.
 -/

/-- A poll direction, as passed to `wait_on`. -/
inductive PollFlag where
  | POLLIN
  | POLLOUT
  deriving DecidableEq

/-- One result of a `wait_on` call, as recorded in the poll trace. -/
inductive PollRes where
  | ready
  | pErr (e : Error)
  deriving DecidableEq

/-- The client driver's direction dispatch (lines 176-184); `none` models
the `unreachable!` arms for `Init` and `Done`. -/
def clientPollFlags : ClientHandshakeStep → Option PollFlag
  | .SendingOauth => some .POLLOUT
  | .SendingNegociateFd => some .POLLOUT
  | .SendingBegin => some .POLLOUT
  | .WaitOauth => some .POLLIN
  | .WaitNegociateFd => some .POLLIN
  | .Init => none
  | .Done => none

/-- The server driver's direction dispatch (lines 385-393); `none` models
the `unreachable!` arm for `Done`. -/
def serverPollFlags : ServerHandshakeStep → Option PollFlag
  | .SendingAuthError => some .POLLOUT
  | .SendingAuthOK => some .POLLOUT
  | .SendingBeginMessage => some .POLLOUT
  | .WaitingForNull => some .POLLIN
  | .WaitingForBegin => some .POLLIN
  | .WaitingForAuth => some .POLLIN
  | .Done => none

/-- Outcome kind of a blocking driver run. -/
inductive BlockKind where
  | finishedClient (r : InitializedClient)
  | finishedServer (r : InitializedServer)
  | err (e : Error)
  | stuck
  | panicked
  | outOfFuel
  deriving DecidableEq

/-- Outcome of a blocking driver run, together with the log of the
directions passed to `wait_on`, in order. -/
structure BlockOut where
  k : BlockKind
  waits : List PollFlag
  deriving DecidableEq

/-- `ClientHandshake::blocking_finish` (lines 169-190): loop advancing the
handshake; on success finalize (the `unwrap_or_else(unreachable!)` is the
`panicked` outcome), on a would-block I/O error wait for readiness in the
direction given by the current step and retry, and propagate any other
failure (including a failing `wait_on`) immediately. -/
def ClientHandshake.blocking_finish (uid ifuel : Nat) :
    Nat → ClientCfg → List PollRes → BlockOut
  | 0, _, _ => ⟨.outOfFuel, []⟩
  | fuel + 1, c, ps =>
    let a := ClientHandshake.advance_handshake uid ifuel c
    match a.k with
    | .ok =>
      match a.cfg.hs.try_finish with
      | .ok r => ⟨.finishedClient r, []⟩
      | _ => ⟨.panicked, []⟩
    | .err e =>
      if e = .Io .wouldBlock then
        match clientPollFlags a.cfg.hs.step with
        | none => ⟨.panicked, []⟩
        | some dir =>
          match ps with
          | [] => ⟨.stuck, []⟩
          | .ready :: rest =>
            let r := ClientHandshake.blocking_finish uid ifuel fuel a.cfg rest
            ⟨r.k, dir :: r.waits⟩
          | .pErr pe :: _ => ⟨.err pe, [dir]⟩
      else ⟨.err e, []⟩
    | .starved => ⟨.stuck, []⟩
    | .panicked => ⟨.panicked, []⟩
    | .outOfFuel => ⟨.outOfFuel, []⟩

/-- `ServerHandshake::blocking_finish` (lines 378-399), mirroring the
client driver. -/
def ServerHandshake.blocking_finish (ifuel : Nat) :
    Nat → ServerCfg → List PollRes → BlockOut
  | 0, _, _ => ⟨.outOfFuel, []⟩
  | fuel + 1, c, ps =>
    let a := ServerHandshake.advance_handshake ifuel c
    match a.k with
    | .ok =>
      match a.cfg.hs.try_finish with
      | .ok r => ⟨.finishedServer r, []⟩
      | _ => ⟨.panicked, []⟩
    | .err e =>
      if e = .Io .wouldBlock then
        match serverPollFlags a.cfg.hs.step with
        | none => ⟨.panicked, []⟩
        | some dir =>
          match ps with
          | [] => ⟨.stuck, []⟩
          | .ready :: rest =>
            let r := ServerHandshake.blocking_finish ifuel fuel a.cfg rest
            ⟨r.k, dir :: r.waits⟩
          | .pErr pe :: _ => ⟨.err pe, [dir]⟩
      else ⟨.err e, []⟩
    | .starved => ⟨.stuck, []⟩
    | .panicked => ⟨.panicked, []⟩
    | .outOfFuel => ⟨.outOfFuel, []⟩

/-- The bytes of an `AUTH EXTERNAL <encoded-uid>` line for uid `u`: what the
client sends after its leading NUL byte (line 95). -/
def authLine (u : Nat) : List Nat :=
  strToCps "AUTH EXTERNAL " ++ uidEncode u ++ strToCps "\r\n"

/-- The states a client handshake value can actually be in: those produced
from `ClientHandshake::new` by repeatedly running loop iterations of
`advance_handshake` against arbitrary socket traces. -/
inductive ClientReachable : ClientHandshake → Prop where
  | new (socket : Nat) : ClientReachable (ClientHandshake.new socket)
  | advance (h : ClientHandshake) (uid : Nat) (ws : List WriteRes) (rs : List ReadRes) :
      ClientReachable h → ClientReachable (clientIter uid ⟨h, ws, rs⟩).cfg.hs

/-
 * Lemmas: flush exactness.
 -/

/-- Bytes transmitted by a flush, followed by the bytes left in the buffer,
reconstitute the original buffer; a flush that returns `Ok` has emptied
the buffer. -/
theorem flush_buffer_exact (buf : List Nat) (ws : List WriteRes) :
    (flush_buffer buf ws).sent ++ (flush_buffer buf ws).buffer = buf ∧
      ((flush_buffer buf ws).res = .ok → (flush_buffer buf ws).buffer = []) := by
  induction ws generalizing buf with
  | nil => cases buf <;> simp [flush_buffer]
  | cons w ws ih =>
    cases buf with
    | nil => simp [flush_buffer]
    | cons b bs =>
      cases w with
      | wrote n =>
        by_cases h : n ≤ (b :: bs).length
        · have h2 := ih ((b :: bs).drop n)
          simp only [flush_buffer, if_pos h]
          refine ⟨?_, fun hres => h2.2 hres⟩
          rw [List.append_assoc, h2.1, List.take_append_drop]
        · have h2 : ¬ n ≤ bs.length + 1 := by simpa using h
          simp [flush_buffer, h2]
      | wErr e => simp [flush_buffer]

/-
 * Lemmas: the uid decimal/hex-pair transform.
 -/

theorem decDigitsAux_eq_digits (fuel : Nat) :
    ∀ n, n ≤ fuel → decDigitsAux fuel n = Nat.digits 10 n := by
  induction fuel with
  | zero =>
    intro n hn
    interval_cases n
    simp [decDigitsAux]
  | succ f ih =>
    intro n hn
    cases n with
    | zero => simp [decDigitsAux]
    | succ m =>
      have hdiv : (m + 1) / 10 ≤ f := by
        have : (m + 1) / 10 < m + 1 := Nat.div_lt_self (Nat.succ_pos m) (by norm_num)
        omega
      rw [decDigitsAux, ih _ hdiv,
        Nat.digits_def' (by norm_num : (1 : ℕ) < 10) (Nat.succ_pos m)]

theorem decimalString_eq (n : Nat) (h : n ≠ 0) :
    decimalString n = ((Nat.digits 10 n).map (fun d => 48 + d)).reverse := by
  rw [decimalString, if_neg h, decDigitsAux_eq_digits n n le_rfl]

theorem decimalString_range (n : Nat) : ∀ c ∈ decimalString n, 48 ≤ c ∧ c ≤ 57 := by
  intro c hc
  by_cases h : n = 0
  · subst h; simp [decimalString] at hc; omega
  · rw [decimalString_eq n h] at hc
    simp only [List.mem_reverse, List.mem_map] at hc
    obtain ⟨d, hd, rfl⟩ := hc
    have : d < 10 := Nat.digits_lt_base (by norm_num) hd
    omega

theorem decimalString_ne_nil (n : Nat) : decimalString n ≠ [] := by
  by_cases h : n = 0
  · subst h; simp [decimalString]
  · rw [decimalString_eq n h]
    simp [Nat.digits_ne_nil_iff_ne_zero, h]

theorem foldr_eq_ofDigits (l : List Nat) :
    l.foldr (fun d a => a * 10 + d) 0 = Nat.ofDigits 10 l := by
  induction l with
  | nil => simp [Nat.ofDigits]
  | cons d l ih =>
    simp only [List.foldr_cons, ih, Nat.ofDigits_cons]
    ring

theorem foldl_decimal (l : List Nat) :
    ((l.map (fun d => 48 + d)).reverse).foldl (fun a c => a * 10 + (c - 48)) 0 =
      Nat.ofDigits 10 l := by
  rw [List.foldl_reverse, ← foldr_eq_ofDigits]
  induction l with
  | nil => simp
  | cons d l ih => simp only [List.map_cons, List.foldr_cons, ih, Nat.add_sub_cancel_left]

theorem hexByte_digit (d : Nat) (h : d < 10) : hexByte (48 + d) = [51, 48 + d] := by
  have h16 : ¬ 48 + d < 16 := by omega
  have hdiv : (48 + d) / 16 = 3 := by omega
  have hmod : (48 + d) % 16 = d := by omega
  rw [hexByte, if_neg h16, hdiv, hmod, hexDigitChar, hexDigitChar,
    if_pos (by norm_num : (3 : ℕ) < 10), if_pos h]

theorem hexPairs_roundtrip (l : List Nat) (hl : ∀ c ∈ l, 48 ≤ c ∧ c ≤ 57) :
    hexPairsDecode ((l.map hexByte).flatten) = some l := by
  induction l with
  | nil => simp [hexPairsDecode]
  | cons c l ih =>
    obtain ⟨h1, h2⟩ := hl c (List.mem_cons_self c l)
    have hc : hexByte c = [51, c] := by
      have := hexByte_digit (c - 48) (by omega)
      rwa [Nat.add_sub_cancel' h1] at this
    have hrest := ih (fun x hx => hl x (List.mem_cons_of_mem c hx))
    simp only [List.map_cons, List.flatten_cons, hc]
    show hexPairsDecode (51 :: c :: (l.map hexByte).flatten) = some (c :: l)
    rw [hexPairsDecode]
    have hv1 : hexDigitVal 51 = some 3 := by decide
    have hv2 : hexDigitVal c = some (c - 48) := by
      rw [hexDigitVal, if_pos ⟨h1, h2⟩]
    rw [hv1, hv2, hrest]
    show (some ((3 * 16 + (c - 48)) :: l) : Option (List Nat)) = some (c :: l)
    have : 3 * 16 + (c - 48) = c := by omega
    rw [this]

theorem parseDec_decimalString (n : Nat) (h : n < 2 ^ 32) :
    parseDecDigits (decimalString n) = some n := by
  have hall : (decimalString n).all (fun c => decide (48 ≤ c ∧ c ≤ 57)) = true := by
    rw [List.all_eq_true]
    intro c hc
    exact decide_eq_true (decimalString_range n c hc)
  by_cases h0 : n = 0
  · subst h0; decide
  · rw [parseDecDigits, if_neg (decimalString_ne_nil n)]
    simp only [hall, if_pos]
    rw [decimalString_eq n h0, foldl_decimal, Nat.ofDigits_digits]
    simp only [if_pos (show n < 2 ^ 32 from h)]

/-- The uid round trip: decoding the client's textual hex-pair encoding of
any `u32` uid recovers the uid. -/
theorem id_from_str_uidEncode (n : Nat) (h : n < 2 ^ 32) :
    id_from_str (uidEncode n) = some n := by
  rw [id_from_str, uidEncode, hexPairs_roundtrip _ (decimalString_range n)]
  show parseDecDigits (decimalString n) = some n
  exact parseDec_decimalString n h

/-
 * Lemmas: lines, UTF-8 and word splitting.
 -/

theorem isWs_false_of (c : Nat) (h1 : 32 < c) (h2 : c < 133) : isWs c = false := by
  have hn : ¬ (c = 0x9 ∨ c = 0xA ∨ c = 0xB ∨ c = 0xC ∨ c = 0xD ∨ c = 0x20 ∨
      c = 0x85 ∨ c = 0xA0 ∨ c = 0x1680 ∨ (0x2000 ≤ c ∧ c ≤ 0x200A) ∨
      c = 0x2028 ∨ c = 0x2029 ∨ c = 0x202F ∨ c = 0x205F ∨ c = 0x3000) := by omega
  simpa [isWs] using hn

theorem takeUntilNl_append (l r : List Nat) (h : 10 ∉ l) :
    takeUntilNl (l ++ 10 :: r) = l ++ [10] := by
  induction l with
  | nil => simp [takeUntilNl]
  | cons c l ih =>
    have hc : c ≠ 10 := fun hh => h (hh ▸ List.mem_cons_self c l)
    show takeUntilNl (c :: (l ++ 10 :: r)) = c :: (l ++ [10])
    rw [takeUntilNl, if_neg hc, ih (fun hh => h (List.mem_cons_of_mem c hh))]

theorem utf8Step_ascii (b : Nat) (rest : List Nat) (hb : b < 128) :
    utf8Step b rest = some (b, rest) := by
  unfold utf8Step
  rw [if_pos hb]

theorem utf8Decode_ascii (l : List Nat) (h : ∀ b ∈ l, b < 128) :
    utf8Decode l = some l := by
  induction l with
  | nil => rfl
  | cons b l ih =>
    have hb : b < 128 := h b (List.mem_cons_self b l)
    show utf8DecodeAux (l.length + 1) (b :: l) = some (b :: l)
    rw [utf8DecodeAux, utf8Step_ascii b l hb]
    have ih2 : utf8DecodeAux l.length l = some l :=
      ih (fun x hx => h x (List.mem_cons_of_mem b hx))
    show (match utf8DecodeAux l.length l with
          | some cs => some (b :: cs)
          | none => none) = some (b :: l)
    rw [ih2]

theorem splitWsAux_word (w : List Nat) : ∀ (cur rest : List Nat) (d : Nat),
    (∀ c ∈ w, isWs c = false) → isWs d = true → (cur ≠ [] ∨ w ≠ []) →
    splitWsAux cur (w ++ d :: rest) = (cur.reverse ++ w) :: splitWsAux [] rest := by
  induction w with
  | nil =>
    intro cur rest d _ hd hne
    have hcur : cur ≠ [] := by
      rcases hne with h | h
      · exact h
      · exact absurd rfl h
    simp [splitWsAux, hd, hcur]
  | cons c w ih =>
    intro cur rest d hw hd _
    have hc : isWs c = false := hw c (List.mem_cons_self c w)
    show splitWsAux cur (c :: (w ++ d :: rest)) = (cur.reverse ++ c :: w) :: splitWsAux [] rest
    rw [splitWsAux, if_neg (by simp [hc]),
      ih (c :: cur) rest d (fun x hx => hw x (List.mem_cons_of_mem c hx)) hd
        (Or.inl (List.cons_ne_nil c cur))]
    simp

theorem splitWsAux_stop (d : Nat) (hd : isWs d = true) :
    splitWsAux [] [d] = [] := by
  simp [splitWsAux, hd]

theorem uidEncode_range (n : Nat) : ∀ c ∈ uidEncode n, 48 ≤ c ∧ c ≤ 57 := by
  intro c hc
  rw [uidEncode] at hc
  simp only [List.mem_flatten, List.mem_map] at hc
  obtain ⟨l, ⟨x, hx, rfl⟩, hcl⟩ := hc
  obtain ⟨hx1, hx2⟩ := decimalString_range n x hx
  have hb : hexByte x = [51, x] := by
    have := hexByte_digit (x - 48) (by omega)
    rwa [Nat.add_sub_cancel' hx1] at this
  rw [hb] at hcl
  simp only [List.mem_cons, List.not_mem_nil, or_false] at hcl
  rcases hcl with rfl | rfl
  · omega
  · omega

theorem hexByte_ne_nil (b : Nat) : hexByte b ≠ [] := by
  rw [hexByte]
  split <;> simp

theorem uidEncode_ne_nil (n : Nat) : uidEncode n ≠ [] := by
  rw [uidEncode]
  cases hd : decimalString n with
  | nil => exact absurd hd (decimalString_ne_nil n)
  | cons c l =>
    simp only [List.map_cons, List.flatten_cons, ne_eq]
    intro h
    exact hexByte_ne_nil c (List.append_eq_nil.mp h).1

theorem endsCRLF (l : List Nat) : ([13, 10] : List Nat).isSuffixOf (l ++ [13, 10]) = true := by
  simp only [List.isSuffixOf_iff_suffix]
  exact List.suffix_append l [13, 10]

theorem isSuffixOf_extend (s e x : List Nat) (h : s.isSuffixOf e = true) :
    s.isSuffixOf (x ++ e) = true := by
  rw [List.isSuffixOf_iff_suffix] at h ⊢
  exact h.trans (List.suffix_append x e)

theorem read_command_stop (buf : List Nat) (rs : List ReadRes)
    (h : ([13, 10] : List Nat).isSuffixOf buf = true) :
    read_command buf rs = ⟨.ok, buf, rs⟩ := by
  rw [read_command.eq_def, if_pos h]

theorem read_command_step (buf b : List Nat) (rs : List ReadRes)
    (h : ([13, 10] : List Nat).isSuffixOf buf = false) :
    read_command buf (.received b :: rs) = read_command (buf ++ b) rs := by
  rw [read_command.eq_def, if_neg (by simp [h])]

/-- `readLine` on a buffer whose first line is `l ++ [10]` (with `l` free of
LF and ASCII) yields exactly that line, whatever follows it. -/
theorem readLine_of_line (l r : List Nat) (h10 : 10 ∉ l) (hascii : ∀ b ∈ l, b < 128) :
    readLine (l ++ 10 :: r) = .ok (l ++ [10]) := by
  rw [readLine, takeUntilNl_append l r h10, utf8Decode_ascii]
  intro b hb
  rcases List.mem_append.mp hb with h | h
  · exact hascii b h
  · simp at h; omega

theorem splitWs_authLine (tok : List Nat) (htok : tok ≠ [])
    (hrange : ∀ c ∈ tok, 48 ≤ c ∧ c ≤ 57) :
    splitWs (strToCps "AUTH EXTERNAL " ++ tok ++ strToCps "\r\n") =
      [strToCps "AUTH", strToCps "EXTERNAL", tok] := by
  have hws : ∀ c ∈ tok, isWs c = false := by
    intro c hc
    obtain ⟨h1, h2⟩ := hrange c hc
    exact isWs_false_of c (by omega) (by omega)
  have e1 : strToCps "AUTH EXTERNAL " ++ tok ++ strToCps "\r\n" =
      strToCps "AUTH" ++ 32 :: (strToCps "EXTERNAL" ++ 32 :: (tok ++ 13 :: [10])) := by
    simp [strToCps]
  rw [splitWs, e1,
    splitWsAux_word (strToCps "AUTH") [] _ 32 (by decide) (by decide) (Or.inr (by decide)),
    splitWsAux_word (strToCps "EXTERNAL") [] _ 32 (by decide) (by decide) (Or.inr (by decide)),
    splitWsAux_word tok [] [10] 13 hws (by decide) (Or.inr htok),
    splitWsAux_stop 10 (by decide)]
  simp

/-- The `WaitingForAuth` parsing of an `AUTH EXTERNAL <uid>` line (with any
pipelined bytes after the CRLF): the decoded uid is compared with the
expected uid and the matching reply is composed. -/
theorem processAuthLine_authLine (exp w : Nat) (guid extra : List Nat) (hw : w < 2 ^ 32) :
    processAuthLine exp guid (authLine w ++ extra) =
      (if w = exp then
        .ok (strToCps "OK " ++ guid ++ strToCps "\r\n", .SendingAuthOK)
      else
        .ok (strToCps "REJECTED EXTERNAL\r\n", .SendingAuthError)) := by
  have hpre : ∀ b ∈ strToCps "AUTH EXTERNAL ", 31 < b ∧ b < 128 := by decide
  have hsplit : authLine w ++ extra =
      (strToCps "AUTH EXTERNAL " ++ uidEncode w ++ [13]) ++ 10 :: extra := by
    simp [authLine, strToCps]
  have h10 : 10 ∉ strToCps "AUTH EXTERNAL " ++ uidEncode w ++ [13] := by
    intro hmem
    rcases List.mem_append.mp hmem with h | h
    · rcases List.mem_append.mp h with h | h
      · have := hpre 10 h; omega
      · have := uidEncode_range w 10 h; omega
    · simp at h
  have hascii : ∀ b ∈ strToCps "AUTH EXTERNAL " ++ uidEncode w ++ [13], b < 128 := by
    intro b hb
    rcases List.mem_append.mp hb with h | h
    · rcases List.mem_append.mp h with h | h
      · exact (hpre b h).2
      · have := uidEncode_range w b h; omega
    · simp at h; omega
  have hline : (strToCps "AUTH EXTERNAL " ++ uidEncode w ++ [13]) ++ [10] = authLine w := by
    simp [authLine, strToCps]
  rw [processAuthLine, hsplit, readLine_of_line _ _ h10 hascii, hline]
  simp only [authLine, splitWs_authLine (uidEncode w) (uidEncode_ne_nil w) (uidEncode_range w),
    processAuthWords, id_from_str_uidEncode w hw]
  simp

/-
 * Lemmas: the auth-wait dispatch.
 -/

/-- The fall-through arms of the auth-wait match can only produce the fatal
premature-`BEGIN` error (exactly on a bare `BEGIN` word list) or one of
the two retry replies. -/
theorem authOther_spec (ws : List (List Nat)) :
    (authOther ws = .error (.Handshake "Received BEGIN while not authenticated") ∧
      ws = [strToCps "BEGIN"]) ∨
    authOther ws = .ok (strToCps "REJECTED EXTERNAL\r\n", .SendingAuthError) ∨
    authOther ws = .ok (strToCps "ERROR Unsupported command\r\n", .SendingAuthError) := by
  unfold authOther
  by_cases h1 : ws.head? = some (strToCps "AUTH") ∨ ws.head? = some (strToCps "ERROR")
  · rw [if_pos h1]
    right; left; rfl
  · rw [if_neg h1]
    by_cases h2 : ws = [strToCps "BEGIN"]
    · rw [if_pos h2]
      left; exact ⟨rfl, h2⟩
    · rw [if_neg h2]
      right; right; rfl

/-- The auth-wait word dispatch either recognises a proper
`AUTH EXTERNAL <uid>` triple or behaves as `authOther`. -/
theorem processAuthWords_spec (exp : Nat) (guid : List Nat) (ws : List (List Nat)) :
    (∃ u, ws = [strToCps "AUTH", strToCps "EXTERNAL", u] ∧
      processAuthWords exp guid ws =
        (match id_from_str u with
         | none => .error (.Handshake "Invalid UID")
         | some uid =>
           if uid = exp then
             .ok (strToCps "OK " ++ guid ++ strToCps "\r\n", .SendingAuthOK)
           else
             .ok (strToCps "REJECTED EXTERNAL\r\n", .SendingAuthError))) ∨
    processAuthWords exp guid ws = authOther ws := by
  rcases ws with _ | ⟨a, _ | ⟨b, _ | ⟨u, _ | ⟨v, r⟩⟩⟩⟩
  · right; simp only [processAuthWords]
  · right; simp only [processAuthWords]
  · right; simp only [processAuthWords]
  · by_cases hab : a = strToCps "AUTH" ∧ b = strToCps "EXTERNAL"
    · left
      refine ⟨u, ?_, ?_⟩
      · rw [hab.1, hab.2]
      · simp only [processAuthWords, if_pos hab]
    · right
      simp only [processAuthWords, if_neg hab]
  · right; simp only [processAuthWords]

/-
 * Claim theorems.
 -/

/-- C2: for every sequence of partial-write results, `flush_buffer` sends
each queued byte exactly once and in order — the transmitted bytes
followed by the bytes still buffered always reconstitute the original
buffer, the flush only reports success once the buffer is empty, and on a
would-block (or any I/O) error the unsent remainder stays buffered, so
resuming neither drops nor duplicates a byte. -/
theorem c2_flush_exactly_once (buf : List Nat) (ws : List WriteRes) :
    (flush_buffer buf ws).sent ++ (flush_buffer buf ws).buffer = buf ∧
      ((flush_buffer buf ws).res = .ok → (flush_buffer buf ws).buffer = []) ∧
      (∀ e, (flush_buffer buf ws).res = .ioErr e →
        (flush_buffer buf ws).sent ++ (flush_buffer buf ws).buffer = buf) :=
  ⟨(flush_buffer_exact buf ws).1, (flush_buffer_exact buf ws).2,
    fun _ _ => (flush_buffer_exact buf ws).1⟩

/-- Witness for C2 at a concrete buffer and a partial write followed by a
would-block. -/
theorem c2_witness :
    (flush_buffer [1, 2, 3] [.wrote 2, .wErr .wouldBlock]).sent ++
        (flush_buffer [1, 2, 3] [.wrote 2, .wErr .wouldBlock]).buffer = [1, 2, 3] :=
  (c2_flush_exactly_once [1, 2, 3] [.wrote 2, .wErr .wouldBlock]).1

/-- C5: decoding the client's encoding of any valid (`u32`) uid yields the
uid back; the encoding is the textual transform (decimal string of the
uid, each character re-encoded as the hex of its code point), not a
binary-to-hex conversion — e.g. uid `10` encodes as `"3130"`, not `"a"`. -/
theorem c5_uid_roundtrip (n : Nat) (h : n < 2 ^ 32) :
    id_from_str (uidEncode n) = some n ∧
      uidEncode 10 = strToCps "3130" ∧ uidEncode 10 ≠ strToCps "a" :=
  ⟨id_from_str_uidEncode n h, by decide, by decide⟩

/-- Witness for C5 at uid 1000. -/
theorem c5_witness : id_from_str (uidEncode 1000) = some 1000 :=
  (c5_uid_roundtrip 1000 (by norm_num)).1

/-- C6: in `WaitingForNull`, a first byte that is not zero makes the
server's advance fail with the fatal handshake error (not a would-block,
not a silent transition), and a zero byte moves it to `WaitingForAuth`
sending nothing. -/
theorem c6_first_byte (sock : Nat) (buf guid : List Nat) (cap : Bool)
    (exp byte : Nat) (ws : List WriteRes) (rest : List ReadRes) :
    (byte ≠ 0 →
      serverIter ⟨⟨sock, buf, .WaitingForNull, guid, cap, exp⟩, ws, .received [byte] :: rest⟩ =
        ⟨.failed (.Handshake "First client byte is not NUL!"),
          ⟨⟨sock, buf, .WaitingForNull, guid, cap, exp⟩, ws, rest⟩, []⟩) ∧
    (byte = 0 →
      serverIter ⟨⟨sock, buf, .WaitingForNull, guid, cap, exp⟩, ws, .received [byte] :: rest⟩ =
        ⟨.next, ⟨⟨sock, buf, .WaitingForAuth, guid, cap, exp⟩, ws, rest⟩, []⟩) := by
  constructor
  · intro h
    simp [serverIter, h]
  · intro h
    simp [serverIter, h]

/-- Witness for C6 at byte `0x01` (fatal) and byte `0x00` (transition). -/
theorem c6_witness :
    serverIter ⟨⟨0, [], .WaitingForNull, strToCps "g", false, 7⟩, [], [.received [1]]⟩ =
      ⟨.failed (.Handshake "First client byte is not NUL!"),
        ⟨⟨0, [], .WaitingForNull, strToCps "g", false, 7⟩, [], []⟩, []⟩ :=
  (c6_first_byte 0 [] (strToCps "g") false 7 1 [] []).1 (by decide)

/-- C9: when `recvmsg` succeeds with 0 bytes in `WaitingForNull`, the
`debug_assert!(read == 1)` condition is false, yet advance reads the
zero-initialized local buffer as a NUL byte and moves to `WaitingForAuth`
instead of reporting a failure. -/
theorem c9_zero_read_treated_as_nul :
    serverIter ⟨⟨0, [], .WaitingForNull, strToCps "g", false, 1000⟩, [], [.received []]⟩ =
      ⟨.next, ⟨⟨0, [], .WaitingForAuth, strToCps "g", false, 1000⟩, [], []⟩, []⟩ ∧
      ([] : List Nat).length ≠ 1 := by decide

/-- C1 (amended): in the authentication-wait state the only line contents
that make the server's advance fail fatally are a bare `BEGIN` line, an
`AUTH EXTERNAL <uid>` line whose uid token cannot be decoded, and a line
that is not valid UTF-8; every other line composes one of the three
replies and moves to a sending step of the retry loop
(`SendingAuthOK`/`SendingAuthError`). -/
theorem c1_auth_wait_fatal_enumeration (exp : Nat) (guid buf : List Nat) :
    (∀ e, processAuthLine exp guid buf = .error e →
      (e = .Io .invalidData ∧ utf8Decode (takeUntilNl buf) = none) ∨
      (∃ cs, utf8Decode (takeUntilNl buf) = some cs ∧
        ((splitWs cs = [strToCps "BEGIN"] ∧
            e = .Handshake "Received BEGIN while not authenticated") ∨
          (∃ u, splitWs cs = [strToCps "AUTH", strToCps "EXTERNAL", u] ∧
            id_from_str u = none ∧ e = .Handshake "Invalid UID")))) ∧
    (∀ bufr st, processAuthLine exp guid buf = .ok (bufr, st) →
      (st = .SendingAuthOK ∨ st = .SendingAuthError) ∧
        (bufr = strToCps "OK " ++ guid ++ strToCps "\r\n" ∨
          bufr = strToCps "REJECTED EXTERNAL\r\n" ∨
          bufr = strToCps "ERROR Unsupported command\r\n")) := by
  cases hu : utf8Decode (takeUntilNl buf) with
  | none =>
    have hp : processAuthLine exp guid buf = .error (.Io .invalidData) := by
      unfold processAuthLine readLine
      rw [hu]
    rw [hp]
    constructor
    · intro e he
      simp only [Except.error.injEq] at he
      exact Or.inl ⟨he.symm, rfl⟩
    · intro bufr st he
      exact absurd he (by simp)
  | some cs =>
    have hr : readLine buf = .ok cs := by
      unfold readLine
      rw [hu]
    have hp : processAuthLine exp guid buf = processAuthWords exp guid (splitWs cs) := by
      unfold processAuthLine
      rw [hr]
    rw [hp]
    rcases processAuthWords_spec exp guid (splitWs cs) with ⟨u, hws, hval⟩ | hval
    · cases hid : id_from_str u with
      | none =>
        have hend : processAuthWords exp guid (splitWs cs) =
            .error (.Handshake "Invalid UID") := by
          rw [hval, hid]
        rw [hend]
        constructor
        · intro e he
          simp only [Except.error.injEq] at he
          exact Or.inr ⟨cs, rfl, Or.inr ⟨u, hws, hid, he.symm⟩⟩
        · intro bufr st he
          exact absurd he (by simp)
      | some uid =>
        by_cases huid : uid = exp
        · have hend : processAuthWords exp guid (splitWs cs) =
              .ok (strToCps "OK " ++ guid ++ strToCps "\r\n", .SendingAuthOK) := by
            rw [hval, hid]
            simp [huid]
          rw [hend]
          constructor
          · intro e he
            exact absurd he (by simp)
          · intro bufr st he
            simp only [Except.ok.injEq, Prod.mk.injEq] at he
            exact ⟨Or.inl he.2.symm, Or.inl he.1.symm⟩
        · have hend : processAuthWords exp guid (splitWs cs) =
              .ok (strToCps "REJECTED EXTERNAL\r\n", .SendingAuthError) := by
            rw [hval, hid]
            simp [huid]
          rw [hend]
          constructor
          · intro e he
            exact absurd he (by simp)
          · intro bufr st he
            simp only [Except.ok.injEq, Prod.mk.injEq] at he
            exact ⟨Or.inr he.2.symm, Or.inr (Or.inl he.1.symm)⟩
    · rw [hval]
      rcases authOther_spec (splitWs cs) with ⟨hv, hbg⟩ | hv | hv
      · rw [hv]
        constructor
        · intro e he
          simp only [Except.error.injEq] at he
          exact Or.inr ⟨cs, rfl, Or.inl ⟨hbg, he.symm⟩⟩
        · intro bufr st he
          exact absurd he (by simp)
      · rw [hv]
        constructor
        · intro e he
          exact absurd he (by simp)
        · intro bufr st he
          simp only [Except.ok.injEq, Prod.mk.injEq] at he
          exact ⟨Or.inr he.2.symm, Or.inr (Or.inl he.1.symm)⟩
      · rw [hv]
        constructor
        · intro e he
          exact absurd he (by simp)
        · intro bufr st he
          simp only [Except.ok.injEq, Prod.mk.injEq] at he
          exact ⟨Or.inr he.2.symm, Or.inr (Or.inr he.1.symm)⟩

/-- Witness for C1's amended theorem at a concrete retry input: the
unsupported command `HELLO` draws the `ERROR Unsupported command` reply
and the retry step. -/
theorem c1_witness :
    ServerHandshakeStep.SendingAuthError = ServerHandshakeStep.SendingAuthOK ∨
      ServerHandshakeStep.SendingAuthError = ServerHandshakeStep.SendingAuthError :=
  ((c1_auth_wait_fatal_enumeration 1000 (strToCps "g") (strToCps "HELLO\r\n")).2
    (strToCps "ERROR Unsupported command\r\n") .SendingAuthError (by decide)).1

/-- C1 counterexample: an `AUTH EXTERNAL zz` line (uid token undecodable)
received in the authentication-wait state makes `advance_handshake`
return a fatal handshake error instead of composing a reply and staying
in the retry loop, contradicting the claim's enumeration of fatal
inputs. -/
theorem c1_counterexample :
    (serverIter ⟨⟨0, [], .WaitingForAuth, strToCps "g", false, 1000⟩, [],
        [.received (strToCps "AUTH EXTERNAL zz\r\n")]⟩).k =
      .failed (.Handshake "Invalid UID") := by decide

theorem authLine_endsCRLF (u : Nat) :
    ([13, 10] : List Nat).isSuffixOf (authLine u) = true := by
  have h : authLine u = (strToCps "AUTH EXTERNAL " ++ uidEncode u) ++ [13, 10] := by
    simp [authLine, strToCps]
  rw [h]
  exact endsCRLF _

theorem read_command_one_line (u : Nat) (rs : List ReadRes) :
    read_command [] (.received (authLine u) :: rs) = ⟨.ok, authLine u, rs⟩ := by
  rw [read_command_step [] (authLine u) rs (by decide), List.nil_append,
    read_command_stop (authLine u) rs (authLine_endsCRLF u)]

/-- C3: a server in the authentication-wait state that receives
`AUTH EXTERNAL <wrong-uid>` composes exactly one `REJECTED EXTERNAL` CRLF
reply and moves to `SendingAuthError`; flushing that reply (19 bytes,
transmitted exactly once) returns the same instance to the
authentication-wait state with an empty buffer; a subsequent
`AUTH EXTERNAL <right-uid>` then moves it to sending `OK` followed by its
bus identifier. -/
theorem c3_reject_then_accept (sock : Nat) (guid : List Nat) (cap : Bool)
    (exp w : Nat) (ws ws2 : List WriteRes) (rs2 : List ReadRes)
    (hw : w < 2 ^ 32) (he : exp < 2 ^ 32) (hne : w ≠ exp) :
    serverIter ⟨⟨sock, [], .WaitingForAuth, guid, cap, exp⟩, ws, [.received (authLine w)]⟩ =
      ⟨.next, ⟨⟨sock, strToCps "REJECTED EXTERNAL\r\n", .SendingAuthError, guid, cap, exp⟩,
        ws, []⟩, []⟩ ∧
    serverIter ⟨⟨sock, strToCps "REJECTED EXTERNAL\r\n", .SendingAuthError, guid, cap, exp⟩,
        [.wrote 19], rs2⟩ =
      ⟨.next, ⟨⟨sock, [], .WaitingForAuth, guid, cap, exp⟩, [], rs2⟩,
        strToCps "REJECTED EXTERNAL\r\n"⟩ ∧
    serverIter ⟨⟨sock, [], .WaitingForAuth, guid, cap, exp⟩, ws2, [.received (authLine exp)]⟩ =
      ⟨.next, ⟨⟨sock, strToCps "OK " ++ guid ++ strToCps "\r\n", .SendingAuthOK, guid, cap, exp⟩,
        ws2, []⟩, []⟩ := by
  refine ⟨?_, ?_, ?_⟩
  · have h1 := read_command_one_line w ([] : List ReadRes)
    have h2 : processAuthLine exp guid (authLine w) =
        .ok (strToCps "REJECTED EXTERNAL\r\n", .SendingAuthError) := by
      have h3 := processAuthLine_authLine exp w guid [] hw
      rw [List.append_nil] at h3
      rw [h3, if_neg hne]
    simp only [serverIter, h1, h2]
  · have h3 : flush_buffer (strToCps "REJECTED EXTERNAL\r\n") [.wrote 19] =
        ⟨.ok, strToCps "REJECTED EXTERNAL\r\n", [], []⟩ := by decide
    simp only [serverIter, serverFlushStep, h3]
  · have h1 := read_command_one_line exp ([] : List ReadRes)
    have h2 : processAuthLine exp guid (authLine exp) =
        .ok (strToCps "OK " ++ guid ++ strToCps "\r\n", .SendingAuthOK) := by
      have h3 := processAuthLine_authLine exp exp guid [] he
      rw [List.append_nil] at h3
      rw [h3, if_pos rfl]
    simp only [serverIter, h1, h2]

/-- Witness for C3: expected uid 1000, wrong uid 1001, guid `g`. -/
theorem c3_witness :
    serverIter ⟨⟨0, [], .WaitingForAuth, strToCps "g", false, 1000⟩, [],
        [.received (authLine 1001)]⟩ =
      ⟨.next, ⟨⟨0, strToCps "REJECTED EXTERNAL\r\n", .SendingAuthError, strToCps "g",
        false, 1000⟩, [], []⟩, []⟩ :=
  (c3_reject_then_accept 0 (strToCps "g") false 1000 1001 [] [] []
    (by norm_num) (by norm_num) (by norm_num)).1

/-- One loop iteration preserves the invariant that any client state at or
past `SendingNegociateFd` has stored a server guid. -/
theorem clientIter_guid_inv (uid : Nat) (ws : List WriteRes) (rs : List ReadRes)
    (h : ClientHandshake)
    (hinv : (h.step = .SendingNegociateFd ∨ h.step = .WaitNegociateFd ∨
        h.step = .SendingBegin ∨ h.step = .Done) → h.server_guid.isSome) :
    ((clientIter uid ⟨h, ws, rs⟩).cfg.hs.step = .SendingNegociateFd ∨
      (clientIter uid ⟨h, ws, rs⟩).cfg.hs.step = .WaitNegociateFd ∨
      (clientIter uid ⟨h, ws, rs⟩).cfg.hs.step = .SendingBegin ∨
      (clientIter uid ⟨h, ws, rs⟩).cfg.hs.step = .Done) →
      (clientIter uid ⟨h, ws, rs⟩).cfg.hs.server_guid.isSome := by
  cases hstep : h.step with
  | Init =>
    simp only [clientIter, hstep]
    intro hc
    rcases hc with hc | hc | hc | hc <;> exact absurd hc (by decide)
  | SendingOauth =>
    simp only [clientIter, clientFlushStep, hstep]
    cases hres : (flush_buffer h.buffer ws).res <;>
      simp only [hres] <;>
      (intro hc; rcases hc with hc | hc | hc | hc <;> exact absurd hc (by decide))
  | WaitOauth =>
    simp only [clientIter, hstep]
    cases hres : (read_command h.buffer rs).res with
    | ok =>
      simp only [hres]
      cases hpo : processOauthLine (read_command h.buffer rs).buffer with
      | error e =>
        simp only [hpo]
        intro hc
        rcases hc with hc | hc | hc | hc <;> exact absurd hc (by decide)
      | ok g =>
        simp only [hpo]
        intro hc
        rfl
    | ioErr e =>
      simp only [hres]
      intro hc
      rcases hc with hc | hc | hc | hc <;> exact absurd hc (by decide)
    | starved =>
      simp only [hres]
      intro hc
      rcases hc with hc | hc | hc | hc <;> exact absurd hc (by decide)
  | SendingNegociateFd =>
    have hg : h.server_guid.isSome := hinv (Or.inl hstep)
    simp only [clientIter, clientFlushStep, hstep]
    cases hres : (flush_buffer h.buffer ws).res <;> simp only [hres] <;>
      (intro hc; exact hg)
  | WaitNegociateFd =>
    have hg : h.server_guid.isSome := hinv (Or.inr (Or.inl hstep))
    simp only [clientIter, hstep]
    cases hres : (read_command h.buffer rs).res with
    | ok =>
      simp only [hres]
      by_cases h1 :
          (strToCps "AGREE_UNIX_FD").isPrefixOf (read_command h.buffer rs).buffer = true
      · rw [if_pos h1]
        intro hc
        exact hg
      · rw [if_neg h1]
        by_cases h2 :
            (strToCps "ERROR").isPrefixOf (read_command h.buffer rs).buffer = true
        · rw [if_pos h2]
          intro hc
          exact hg
        · rw [if_neg h2]
          intro hc
          exact hg
    | ioErr e =>
      simp only [hres]
      intro hc
      exact hg
    | starved =>
      simp only [hres]
      intro hc
      exact hg
  | SendingBegin =>
    have hg : h.server_guid.isSome := hinv (Or.inr (Or.inr (Or.inl hstep)))
    simp only [clientIter, clientFlushStep, hstep]
    cases hres : (flush_buffer h.buffer ws).res <;> simp only [hres] <;>
      (intro hc; exact hg)
  | Done =>
    have hg : h.server_guid.isSome := hinv (Or.inr (Or.inr (Or.inr hstep)))
    simp only [clientIter, hstep]
    intro hc
    exact hg

/-- Every reachable client state at or past `SendingNegociateFd` has a
stored server guid; in particular a reachable `Done` state can be
finalized. -/
theorem clientReachable_guid (h : ClientHandshake) (hr : ClientReachable h) :
    (h.step = .SendingNegociateFd ∨ h.step = .WaitNegociateFd ∨
      h.step = .SendingBegin ∨ h.step = .Done) → h.server_guid.isSome := by
  induction hr with
  | new s =>
    intro hc
    simp [ClientHandshake.new] at hc
  | advance h0 uid ws rs hr0 ih => exact clientIter_guid_inv uid ws rs h0 ih

/-- C4: `try_finish` on a handshake whose step is not `Done` fails and
returns the original value unchanged (client and server); on `Done` it
succeeds, producing the initialized result carrying the socket handle,
the negotiated bus identifier and the negotiated fd-passing flag (for the
client, any reachable `Done` state has a stored identifier). -/
theorem c4_try_finish :
    (∀ s : ServerHandshake,
      (s.step ≠ .Done → s.try_finish = .err s) ∧
      (s.step = .Done → s.try_finish = .ok ⟨s.socket, s.server_guid, s.cap_unix_fd⟩)) ∧
    (∀ c : ClientHandshake, ClientReachable c →
      (c.step ≠ .Done → c.try_finish = .err c) ∧
      (c.step = .Done → ∃ g, c.server_guid = some g ∧
        c.try_finish = .ok ⟨c.socket, g, c.cap_unix_fd⟩)) := by
  constructor
  · intro s
    constructor
    · intro hne
      unfold ServerHandshake.try_finish
      cases hs : s.step <;> first | rfl | exact absurd hs hne
    · intro hd
      unfold ServerHandshake.try_finish
      rw [hd]
  · intro c hr
    constructor
    · intro hne
      unfold ClientHandshake.try_finish
      cases hs : c.step <;> first | rfl | exact absurd hs hne
    · intro hd
      have hg := clientReachable_guid c hr (Or.inr (Or.inr (Or.inr hd)))
      obtain ⟨g, hg⟩ := Option.isSome_iff_exists.mp hg
      refine ⟨g, hg, ?_⟩
      unfold ClientHandshake.try_finish
      rw [hd, hg]

/-- Witness for C4: a finished server succeeds; an unfinished server and a
fresh (reachable) client are returned unchanged; and a client driven
through a full concrete handshake run to `Done` finalizes into the
initialized result carrying its socket, the received guid and the
negotiated fd flag. -/
theorem c4_witness :
    ServerHandshake.try_finish ⟨0, [], .Done, strToCps "g", true, 5⟩ =
      .ok ⟨0, strToCps "g", true⟩ ∧
    ServerHandshake.try_finish ⟨0, [], .WaitingForAuth, strToCps "g", true, 5⟩ =
      .err ⟨0, [], .WaitingForAuth, strToCps "g", true, 5⟩ ∧
    ClientHandshake.try_finish (ClientHandshake.new 3) =
      .err (ClientHandshake.new 3) ∧
    ClientHandshake.try_finish ⟨7, [], .Done, some (strToCps "g"), true⟩ =
      .ok ⟨7, strToCps "g", true⟩ := by
  refine ⟨(c4_try_finish.1 ⟨0, [], .Done, strToCps "g", true, 5⟩).2 rfl,
    (c4_try_finish.1 ⟨0, [], .WaitingForAuth, strToCps "g", true, 5⟩).1 (by decide),
    (c4_try_finish.2 (ClientHandshake.new 3) (.new 3)).1 (by decide), ?_⟩
  have hchain := ClientReachable.advance _ 0 [.wrote 7] []
    (ClientReachable.advance _ 0 [] [.received (strToCps "AGREE_UNIX_FD\r\n")]
      (ClientReachable.advance _ 0 [.wrote 19] []
        (ClientReachable.advance _ 0 [] [.received (strToCps "OK g\r\n")]
          (ClientReachable.advance _ 0 [.wrote 19] []
            (ClientReachable.advance _ 0 [] []
              (ClientReachable.new 7))))))
  have heq : ((clientIter 0 ⟨(clientIter 0 ⟨(clientIter 0 ⟨(clientIter 0
      ⟨(clientIter 0 ⟨(clientIter 0 ⟨ClientHandshake.new 7, [], []⟩).cfg.hs,
        [.wrote 19], []⟩).cfg.hs, [], [.received (strToCps "OK g\r\n")]⟩).cfg.hs,
        [.wrote 19], []⟩).cfg.hs, [], [.received (strToCps "AGREE_UNIX_FD\r\n")]⟩).cfg.hs,
        [.wrote 7], []⟩).cfg.hs) =
      (⟨7, [], .Done, some (strToCps "g"), true⟩ : ClientHandshake) := by decide
  rw [heq] at hchain
  obtain ⟨g, hg, hok⟩ :=
    (c4_try_finish.2 (⟨7, [], .Done, some (strToCps "g"), true⟩ : ClientHandshake) hchain).2 rfl
  have hg2 : some (strToCps "g") = some g := hg
  rw [← Option.some.inj hg2] at hok
  exact hok

/-- A failing client loop iteration leaves the step unchanged, and that
step is neither `Init` (which does no I/O) nor `Done` (which returns
`Ok`). -/
theorem clientIter_failed_step (uid : Nat) (c : ClientCfg) (e : Error)
    (h : (clientIter uid c).k = .failed e) :
    (clientIter uid c).cfg.hs.step = c.hs.step ∧
      c.hs.step ≠ .Init ∧ c.hs.step ≠ .Done := by
  cases hstep : c.hs.step with
  | Init =>
    simp only [clientIter, hstep] at h
    simp at h
  | SendingOauth =>
    simp only [clientIter, clientFlushStep, hstep] at h ⊢
    cases hres : (flush_buffer c.hs.buffer c.ws).res <;> simp only [hres] at h ⊢ <;>
      exact ⟨by trivial, by decide, by decide⟩
  | WaitOauth =>
    simp only [clientIter, hstep] at h ⊢
    cases hres : (read_command c.hs.buffer c.rs).res with
    | ok =>
      simp only [hres] at h ⊢
      cases hpo : processOauthLine (read_command c.hs.buffer c.rs).buffer <;>
        simp only [hpo] at h ⊢ <;>
        exact ⟨by trivial, by decide, by decide⟩
    | ioErr e2 =>
      simp only [hres] at h ⊢
      exact ⟨by trivial, by decide, by decide⟩
    | starved =>
      simp only [hres] at h
      simp at h
  | SendingNegociateFd =>
    simp only [clientIter, clientFlushStep, hstep] at h ⊢
    cases hres : (flush_buffer c.hs.buffer c.ws).res <;> simp only [hres] at h ⊢ <;>
      exact ⟨by trivial, by decide, by decide⟩
  | WaitNegociateFd =>
    simp only [clientIter, hstep] at h ⊢
    cases hres : (read_command c.hs.buffer c.rs).res with
    | ok =>
      simp only [hres] at h ⊢
      by_cases h1 :
          (strToCps "AGREE_UNIX_FD").isPrefixOf (read_command c.hs.buffer c.rs).buffer = true
      · rw [if_pos h1] at h
        simp at h
      · rw [if_neg h1] at h ⊢
        by_cases h2 :
            (strToCps "ERROR").isPrefixOf (read_command c.hs.buffer c.rs).buffer = true
        · rw [if_pos h2] at h
          simp at h
        · rw [if_neg h2] at h ⊢
          exact ⟨by trivial, by decide, by decide⟩
    | ioErr e2 =>
      simp only [hres] at h ⊢
      exact ⟨by trivial, by decide, by decide⟩
    | starved =>
      simp only [hres] at h
      simp at h
  | SendingBegin =>
    simp only [clientIter, clientFlushStep, hstep] at h ⊢
    cases hres : (flush_buffer c.hs.buffer c.ws).res <;> simp only [hres] at h ⊢ <;>
      exact ⟨by trivial, by decide, by decide⟩
  | Done =>
    simp only [clientIter, hstep] at h
    simp at h

/-- A failing server loop iteration leaves the step unchanged, and that
step is never `Done`. -/
theorem serverIter_failed_step (c : ServerCfg) (e : Error)
    (h : (serverIter c).k = .failed e) :
    (serverIter c).cfg.hs.step = c.hs.step ∧ c.hs.step ≠ .Done := by
  cases hstep : c.hs.step with
  | WaitingForNull =>
    simp only [serverIter, hstep] at h ⊢
    cases hrs : c.rs with
    | nil =>
      simp only [hrs] at h
      simp at h
    | cons r rest =>
      cases r with
      | received b =>
        simp only [hrs] at h ⊢
        by_cases hb : b.headD 0 ≠ 0
        · rw [if_pos hb] at h ⊢
          exact ⟨by trivial, by decide⟩
        · rw [if_neg hb] at h
          simp at h
      | rErr e2 =>
        simp only [hrs] at h ⊢
        exact ⟨by trivial, by decide⟩
  | WaitingForAuth =>
    simp only [serverIter, hstep] at h ⊢
    cases hres : (read_command c.hs.buffer c.rs).res with
    | ok =>
      simp only [hres] at h ⊢
      cases hpa : processAuthLine c.hs.client_uid c.hs.server_guid
          (read_command c.hs.buffer c.rs).buffer with
      | error e2 =>
        simp only [hpa] at h ⊢
        exact ⟨by trivial, by decide⟩
      | ok p =>
        simp only [hpa] at h
        simp at h
    | ioErr e2 =>
      simp only [hres] at h ⊢
      exact ⟨by trivial, by decide⟩
    | starved =>
      simp only [hres] at h
      simp at h
  | SendingAuthError =>
    simp only [serverIter, serverFlushStep, hstep] at h ⊢
    cases hres : (flush_buffer c.hs.buffer c.ws).res <;> simp only [hres] at h ⊢ <;>
      exact ⟨by trivial, by decide⟩
  | SendingAuthOK =>
    simp only [serverIter, serverFlushStep, hstep] at h ⊢
    cases hres : (flush_buffer c.hs.buffer c.ws).res <;> simp only [hres] at h ⊢ <;>
      exact ⟨by trivial, by decide⟩
  | WaitingForBegin =>
    simp only [serverIter, hstep] at h ⊢
    cases hres : (read_command c.hs.buffer c.rs).res with
    | ok =>
      simp only [hres] at h ⊢
      cases hpb : processBeginLine (read_command c.hs.buffer c.rs).buffer with
      | error e2 =>
        simp only [hpb] at h ⊢
        exact ⟨by trivial, by decide⟩
      | ok b =>
        cases b <;> simp only [hpb] at h <;> simp at h
    | ioErr e2 =>
      simp only [hres] at h ⊢
      exact ⟨by trivial, by decide⟩
    | starved =>
      simp only [hres] at h
      simp at h
  | SendingBeginMessage =>
    simp only [serverIter, serverFlushStep, hstep] at h ⊢
    cases hres : (flush_buffer c.hs.buffer c.ws).res <;> simp only [hres] at h ⊢ <;>
      exact ⟨by trivial, by decide⟩
  | Done =>
    simp only [serverIter, hstep] at h
    simp at h

/-- Any error returned by the client's `advance_handshake` leaves the
machine at a step other than `Init` and `Done`. -/
theorem clientAdvance_err_step (uid : Nat) : ∀ (fuel : Nat) (c : ClientCfg) (e : Error),
    (ClientHandshake.advance_handshake uid fuel c).k = .err e →
    (ClientHandshake.advance_handshake uid fuel c).cfg.hs.step ≠ .Init ∧
      (ClientHandshake.advance_handshake uid fuel c).cfg.hs.step ≠ .Done := by
  intro fuel
  induction fuel with
  | zero =>
    intro c e h
    simp [ClientHandshake.advance_handshake] at h
  | succ f ih =>
    intro c e h
    rw [ClientHandshake.advance_handshake] at h ⊢
    cases hk : (clientIter uid c).k with
    | next =>
      simp only [hk] at h ⊢
      exact ih (clientIter uid c).cfg e h
    | finished => simp only [hk] at h; simp at h
    | failed e2 =>
      simp only [hk] at h ⊢
      obtain ⟨h1, h2, h3⟩ := clientIter_failed_step uid c e2 hk
      rw [h1]
      exact ⟨h2, h3⟩
    | starved => simp only [hk] at h; simp at h
    | panicked => simp only [hk] at h; simp at h

/-- Any error returned by the server's `advance_handshake` leaves the
machine at a step other than `Done`. -/
theorem serverAdvance_err_step : ∀ (fuel : Nat) (c : ServerCfg) (e : Error),
    (ServerHandshake.advance_handshake fuel c).k = .err e →
    (ServerHandshake.advance_handshake fuel c).cfg.hs.step ≠ .Done := by
  intro fuel
  induction fuel with
  | zero =>
    intro c e h
    simp [ServerHandshake.advance_handshake] at h
  | succ f ih =>
    intro c e h
    rw [ServerHandshake.advance_handshake] at h ⊢
    cases hk : (serverIter c).k with
    | next =>
      simp only [hk] at h ⊢
      exact ih (serverIter c).cfg e h
    | finished => simp only [hk] at h; simp at h
    | failed e2 =>
      simp only [hk] at h ⊢
      obtain ⟨h1, h2⟩ := serverIter_failed_step c e2 hk
      rw [h1]
      exact h2
    | starved => simp only [hk] at h; simp at h
    | panicked => simp only [hk] at h; simp at h

theorem clientPollFlags_some (st : ClientHandshakeStep)
    (h1 : st ≠ .Init) (h2 : st ≠ .Done) : clientPollFlags st ≠ none := by
  cases st <;> simp_all [clientPollFlags]

theorem serverPollFlags_some (st : ServerHandshakeStep) (h : st ≠ .Done) :
    serverPollFlags st ≠ none := by
  cases st <;> simp_all [serverPollFlags]

/-- C10: whenever `advance_handshake` returns a would-block error, the
current step is neither the client's `Init` nor either machine's `Done`,
so the blocking drivers' direction dispatch always yields a direction and
their `unreachable!` arms are never taken. -/
theorem c10_wouldblock_never_init_done :
    (∀ (uid fuel : Nat) (c : ClientCfg),
      (ClientHandshake.advance_handshake uid fuel c).k = .err (.Io .wouldBlock) →
      (ClientHandshake.advance_handshake uid fuel c).cfg.hs.step ≠ .Init ∧
        (ClientHandshake.advance_handshake uid fuel c).cfg.hs.step ≠ .Done ∧
        clientPollFlags (ClientHandshake.advance_handshake uid fuel c).cfg.hs.step ≠ none) ∧
    (∀ (fuel : Nat) (c : ServerCfg),
      (ServerHandshake.advance_handshake fuel c).k = .err (.Io .wouldBlock) →
      (ServerHandshake.advance_handshake fuel c).cfg.hs.step ≠ .Done ∧
        serverPollFlags (ServerHandshake.advance_handshake fuel c).cfg.hs.step ≠ none) := by
  constructor
  · intro uid fuel c h
    obtain ⟨h1, h2⟩ := clientAdvance_err_step uid fuel c (.Io .wouldBlock) h
    exact ⟨h1, h2, clientPollFlags_some _ h1 h2⟩
  · intro fuel c h
    have h1 := serverAdvance_err_step fuel c (.Io .wouldBlock) h
    exact ⟨h1, serverPollFlags_some _ h1⟩

/-- Witness for C10: a client blocked mid-`SendingOauth` and a server
blocked mid-`WaitingForNull`. -/
theorem c10_witness :
    (ClientHandshake.advance_handshake 0 3
        ⟨⟨0, [5], .SendingOauth, none, false⟩, [.wErr .wouldBlock], []⟩).cfg.hs.step ≠
      .Init ∧
    (ServerHandshake.advance_handshake 3
        ⟨⟨0, [], .WaitingForNull, strToCps "g", false, 7⟩, [], [.rErr .wouldBlock]⟩).cfg.hs.step ≠
      .Done :=
  ⟨(c10_wouldblock_never_init_done.1 0 3
      ⟨⟨0, [5], .SendingOauth, none, false⟩, [.wErr .wouldBlock], []⟩ (by decide)).1,
    (c10_wouldblock_never_init_done.2 3
      ⟨⟨0, [], .WaitingForNull, strToCps "g", false, 7⟩, [], [.rErr .wouldBlock]⟩ (by decide)).1⟩

/-- C7: when the blocking driver's advance call fails with a would-block
error, the driver waits for readiness in the direction determined by the
current step — writable (`POLLOUT`) exactly for the sending steps,
readable (`POLLIN`) exactly for the waiting steps — and then retries
(recursing with the post-advance state, logging the wait); a failing
`wait_on` propagates; and every failure not classified as would-block is
propagated immediately, with no wait performed. -/
theorem c7_blocking_driver :
    (∀ st : ClientHandshakeStep,
      (clientPollFlags st = some .POLLOUT ↔
        (st = .SendingOauth ∨ st = .SendingNegociateFd ∨ st = .SendingBegin)) ∧
      (clientPollFlags st = some .POLLIN ↔
        (st = .WaitOauth ∨ st = .WaitNegociateFd))) ∧
    (∀ st : ServerHandshakeStep,
      (serverPollFlags st = some .POLLOUT ↔
        (st = .SendingAuthError ∨ st = .SendingAuthOK ∨ st = .SendingBeginMessage)) ∧
      (serverPollFlags st = some .POLLIN ↔
        (st = .WaitingForNull ∨ st = .WaitingForBegin ∨ st = .WaitingForAuth))) ∧
    (∀ (uid ifuel fuel : Nat) (c : ClientCfg) (ps : List PollRes) (e : Error),
      (ClientHandshake.advance_handshake uid ifuel c).k = .err e →
      e ≠ .Io .wouldBlock →
      ClientHandshake.blocking_finish uid ifuel (fuel + 1) c ps = ⟨.err e, []⟩) ∧
    (∀ (uid ifuel fuel : Nat) (c : ClientCfg),
      (ClientHandshake.advance_handshake uid ifuel c).k = .err (.Io .wouldBlock) →
      ∃ dir, clientPollFlags
          (ClientHandshake.advance_handshake uid ifuel c).cfg.hs.step = some dir ∧
        (∀ ps, ClientHandshake.blocking_finish uid ifuel (fuel + 1) c (.ready :: ps) =
          ⟨(ClientHandshake.blocking_finish uid ifuel fuel
              (ClientHandshake.advance_handshake uid ifuel c).cfg ps).k,
            dir :: (ClientHandshake.blocking_finish uid ifuel fuel
              (ClientHandshake.advance_handshake uid ifuel c).cfg ps).waits⟩) ∧
        (∀ pe ps, ClientHandshake.blocking_finish uid ifuel (fuel + 1) c (.pErr pe :: ps) =
          ⟨.err pe, [dir]⟩)) ∧
    (∀ (ifuel fuel : Nat) (c : ServerCfg) (ps : List PollRes) (e : Error),
      (ServerHandshake.advance_handshake ifuel c).k = .err e →
      e ≠ .Io .wouldBlock →
      ServerHandshake.blocking_finish ifuel (fuel + 1) c ps = ⟨.err e, []⟩) ∧
    (∀ (ifuel fuel : Nat) (c : ServerCfg),
      (ServerHandshake.advance_handshake ifuel c).k = .err (.Io .wouldBlock) →
      ∃ dir, serverPollFlags
          (ServerHandshake.advance_handshake ifuel c).cfg.hs.step = some dir ∧
        (∀ ps, ServerHandshake.blocking_finish ifuel (fuel + 1) c (.ready :: ps) =
          ⟨(ServerHandshake.blocking_finish ifuel fuel
              (ServerHandshake.advance_handshake ifuel c).cfg ps).k,
            dir :: (ServerHandshake.blocking_finish ifuel fuel
              (ServerHandshake.advance_handshake ifuel c).cfg ps).waits⟩) ∧
        (∀ pe ps, ServerHandshake.blocking_finish ifuel (fuel + 1) c (.pErr pe :: ps) =
          ⟨.err pe, [dir]⟩)) := by
  refine ⟨?_, ?_, ?_, ?_, ?_, ?_⟩
  · intro st
    cases st <;> simp [clientPollFlags]
  · intro st
    cases st <;> simp [serverPollFlags]
  · intro uid ifuel fuel c ps e ha hne
    rw [ClientHandshake.blocking_finish]
    simp only [ha]
    rw [if_neg hne]
  · intro uid ifuel fuel c ha
    obtain ⟨h1, h2⟩ := clientAdvance_err_step uid ifuel c (.Io .wouldBlock) ha
    cases hpf : clientPollFlags (ClientHandshake.advance_handshake uid ifuel c).cfg.hs.step with
    | none => exact absurd hpf (clientPollFlags_some _ h1 h2)
    | some dir =>
      refine ⟨dir, rfl, ?_, ?_⟩
      · intro ps
        rw [ClientHandshake.blocking_finish]
        simp only [ha]
        rw [if_pos trivial, hpf]
      · intro pe ps
        rw [ClientHandshake.blocking_finish]
        simp only [ha]
        rw [if_pos trivial, hpf]
  · intro ifuel fuel c ps e ha hne
    rw [ServerHandshake.blocking_finish]
    simp only [ha]
    rw [if_neg hne]
  · intro ifuel fuel c ha
    have h1 := serverAdvance_err_step ifuel c (.Io .wouldBlock) ha
    cases hpf : serverPollFlags (ServerHandshake.advance_handshake ifuel c).cfg.hs.step with
    | none => exact absurd hpf (serverPollFlags_some _ h1)
    | some dir =>
      refine ⟨dir, rfl, ?_, ?_⟩
      · intro ps
        rw [ServerHandshake.blocking_finish]
        simp only [ha]
        rw [if_pos trivial, hpf]
      · intro pe ps
        rw [ServerHandshake.blocking_finish]
        simp only [ha]
        rw [if_pos trivial, hpf]

/-- Witness for C7: a non-would-block write error propagates immediately
through both blocking drivers. -/
theorem c7_witness :
    ClientHandshake.blocking_finish 0 3 1
        ⟨⟨0, [5], .SendingOauth, none, false⟩, [.wErr (.other 5)], []⟩ [] =
      ⟨.err (.Io (.other 5)), []⟩ ∧
    ServerHandshake.blocking_finish 3 1
        ⟨⟨0, [], .WaitingForNull, strToCps "g", false, 7⟩, [], [.rErr (.other 5)]⟩ [] =
      ⟨.err (.Io (.other 5)), []⟩ :=
  ⟨c7_blocking_driver.2.2.1 0 3 0 ⟨⟨0, [5], .SendingOauth, none, false⟩,
      [.wErr (.other 5)], []⟩ [] (.Io (.other 5)) (by decide) (by decide),
    c7_blocking_driver.2.2.2.2.1 3 0 ⟨⟨0, [], .WaitingForNull, strToCps "g", false, 7⟩,
      [], [.rErr (.other 5)]⟩ [] (.Io (.other 5)) (by decide) (by decide)⟩

theorem read_command_starved (buf : List Nat)
    (h : ([13, 10] : List Nat).isSuffixOf buf = false) :
    read_command buf [] = ⟨.starved, buf, []⟩ := by
  rw [read_command.eq_def, if_neg (by simp [h])]

theorem read_command_rerr (buf : List Nat) (e : IoErrKind) (rs : List ReadRes)
    (h : ([13, 10] : List Nat).isSuffixOf buf = false) :
    read_command buf (.rErr e :: rs) = ⟨.ioErr e, buf, rs⟩ := by
  rw [read_command.eq_def, if_neg (by simp [h])]

/-- `takeUntilNl` never looks past the first LF: bytes appended after a
chunk that already contains an LF are ignored. -/
theorem takeUntilNl_of_mem (l r : List Nat) (h : 10 ∈ l) :
    takeUntilNl (l ++ r) = takeUntilNl l := by
  induction l with
  | nil => simp at h
  | cons c l ih =>
    by_cases hc : c = 10
    · subst hc
      show takeUntilNl (10 :: (l ++ r)) = takeUntilNl (10 :: l)
      rw [takeUntilNl, takeUntilNl, if_pos rfl, if_pos rfl]
    · have h2 : 10 ∈ l := by
        rcases List.mem_cons.mp h with h3 | h3
        · exact absurd h3.symm hc
        · exact h3
      show takeUntilNl (c :: (l ++ r)) = takeUntilNl (c :: l)
      rw [takeUntilNl, takeUntilNl, if_neg hc, if_neg hc, ih h2]

/-- `read_line` reads only the first line: whatever bytes follow a chunk
containing the line terminator are invisible to it. -/
theorem readLine_first_line (l r : List Nat) (h : 10 ∈ l) :
    readLine (l ++ r) = readLine l := by
  unfold readLine
  rw [takeUntilNl_of_mem l r h]

/-- The auth-wait line handling parses only the first line of the buffer. -/
theorem processAuthLine_first_line (exp : Nat) (guid l r : List Nat) (h : 10 ∈ l) :
    processAuthLine exp guid (l ++ r) = processAuthLine exp guid l := by
  unfold processAuthLine
  rw [readLine_first_line l r h]

/-- The begin-wait line handling parses only the first line of the buffer. -/
theorem processBeginLine_first_line (l r : List Nat) (h : 10 ∈ l) :
    processBeginLine (l ++ r) = processBeginLine l := by
  unfold processBeginLine
  rw [readLine_first_line l r h]

/-- The client's auth-reply line handling parses only the first line of the
buffer. -/
theorem processOauthLine_first_line (l r : List Nat) (h : 10 ∈ l) :
    processOauthLine (l ++ r) = processOauthLine l := by
  unfold processOauthLine
  rw [readLine_first_line l r h]

/-- Every successful auth-wait dispatch composes one of the three replies
and moves to one of the two sending steps. -/
theorem processAuthLine_ok_shape (exp : Nat) (guid buf bufr : List Nat)
    (st : ServerHandshakeStep) (h : processAuthLine exp guid buf = .ok (bufr, st)) :
    (st = .SendingAuthOK ∨ st = .SendingAuthError) ∧
      (bufr = strToCps "OK " ++ guid ++ strToCps "\r\n" ∨
        bufr = strToCps "REJECTED EXTERNAL\r\n" ∨
        bufr = strToCps "ERROR Unsupported command\r\n") := by
  unfold processAuthLine at h
  cases hr : readLine buf with
  | error e =>
    simp only [hr] at h
    exact absurd h (by simp)
  | ok cs =>
    simp only [hr] at h
    rcases processAuthWords_spec exp guid (splitWs cs) with ⟨u, _, hval⟩ | hval
    · rw [hval] at h
      cases hid : id_from_str u with
      | none =>
        simp only [hid] at h
        exact absurd h (by simp)
      | some uid =>
        simp only [hid] at h
        by_cases huid : uid = exp
        · rw [if_pos huid] at h
          simp only [Except.ok.injEq, Prod.mk.injEq] at h
          exact ⟨Or.inl h.2.symm, Or.inl h.1.symm⟩
        · rw [if_neg huid] at h
          simp only [Except.ok.injEq, Prod.mk.injEq] at h
          exact ⟨Or.inr h.2.symm, Or.inr (Or.inl h.1.symm)⟩
    · rcases authOther_spec (splitWs cs) with ⟨hv, _⟩ | hv | hv
      · rw [hval, hv] at h
        simp at h
      · rw [hval, hv] at h
        simp only [Except.ok.injEq, Prod.mk.injEq] at h
        exact ⟨Or.inr h.2.symm, Or.inr (Or.inl h.1.symm)⟩
      · rw [hval, hv] at h
        simp only [Except.ok.injEq, Prod.mk.injEq] at h
        exact ⟨Or.inr h.2.symm, Or.inr (Or.inr h.1.symm)⟩

/-- The begin-wait word dispatch has exactly four outcomes: the `BEGIN`
transition, or one of the three composed replies with its step. -/
theorem processBeginWords_shape (ws : List (List Nat)) :
    processBeginWords ws = .done ∨
    processBeginWords ws = .reply (strToCps "REJECTED EXTERNAL\r\n") .SendingAuthError false ∨
    processBeginWords ws = .reply (strToCps "AGREE_UNIX_FD\r\n") .SendingBeginMessage true ∨
    processBeginWords ws =
      .reply (strToCps "ERROR Unsupported command\r\n") .SendingBeginMessage false := by
  unfold processBeginWords
  by_cases h1 : ws = [strToCps "BEGIN"]
  · rw [if_pos h1]
    exact Or.inl rfl
  · rw [if_neg h1]
    by_cases h2 : ws = [strToCps "CANCEL"]
    · rw [if_pos h2]
      right; left; rfl
    · rw [if_neg h2]
      by_cases h3 : ws.head? = some (strToCps "ERROR")
      · rw [if_pos h3]
        right; left; rfl
      · rw [if_neg h3]
        by_cases h4 : ws = [strToCps "NEGOTIATE_UNIX_FD"]
        · rw [if_pos h4]
          right; right; left; rfl
        · rw [if_neg h4]
          right; right; right; rfl

/-- Every successful begin-wait line handling yields one of the four
outcomes of `processBeginWords_shape`. -/
theorem processBeginLine_ok_shape (buf : List Nat) (b : BeginOut)
    (h : processBeginLine buf = .ok b) :
    b = .done ∨
    b = .reply (strToCps "REJECTED EXTERNAL\r\n") .SendingAuthError false ∨
    b = .reply (strToCps "AGREE_UNIX_FD\r\n") .SendingBeginMessage true ∨
    b = .reply (strToCps "ERROR Unsupported command\r\n") .SendingBeginMessage false := by
  unfold processBeginLine at h
  cases hr : readLine buf with
  | error e =>
    simp only [hr] at h
    exact absurd h (by simp)
  | ok cs =>
    simp only [hr, Except.ok.injEq] at h
    rcases processBeginWords_shape (splitWs cs) with hv | hv | hv | hv <;>
      rw [← h, hv] <;> simp

/-- Whenever the server's auth-wait step advances, its buffer has been
overwritten with one of the three composed replies — the bytes read from
the socket (the first line and any pipelined remainder) are gone — and the
new step is a sending step of the retry loop. -/
theorem serverIter_auth_reply_overwrites (sock : Nat) (buf0 guid : List Nat)
    (cap : Bool) (exp : Nat) (ws : List WriteRes) (rs : List ReadRes)
    (hk : (serverIter ⟨⟨sock, buf0, .WaitingForAuth, guid, cap, exp⟩, ws, rs⟩).k = .next) :
    ((serverIter ⟨⟨sock, buf0, .WaitingForAuth, guid, cap, exp⟩, ws, rs⟩).cfg.hs.buffer =
        strToCps "OK " ++ guid ++ strToCps "\r\n" ∨
      (serverIter ⟨⟨sock, buf0, .WaitingForAuth, guid, cap, exp⟩, ws, rs⟩).cfg.hs.buffer =
        strToCps "REJECTED EXTERNAL\r\n" ∨
      (serverIter ⟨⟨sock, buf0, .WaitingForAuth, guid, cap, exp⟩, ws, rs⟩).cfg.hs.buffer =
        strToCps "ERROR Unsupported command\r\n") ∧
    ((serverIter ⟨⟨sock, buf0, .WaitingForAuth, guid, cap, exp⟩, ws, rs⟩).cfg.hs.step =
        .SendingAuthOK ∨
      (serverIter ⟨⟨sock, buf0, .WaitingForAuth, guid, cap, exp⟩, ws, rs⟩).cfg.hs.step =
        .SendingAuthError) := by
  simp only [serverIter] at hk ⊢
  cases hres : (read_command buf0 rs).res with
  | ok =>
    simp only [hres] at hk ⊢
    cases hpa : processAuthLine exp guid (read_command buf0 rs).buffer with
    | error e =>
      simp only [hpa] at hk
      exact absurd hk (by simp)
    | ok p =>
      obtain ⟨nbuf, nstep⟩ := p
      obtain ⟨hst, hbuf⟩ := processAuthLine_ok_shape exp guid _ nbuf nstep hpa
      simp only [hpa] at hk ⊢
      exact ⟨hbuf, hst⟩
  | ioErr e =>
    simp only [hres] at hk
    exact absurd hk (by simp)
  | starved =>
    simp only [hres] at hk
    exact absurd hk (by simp)

/-- Whenever the server's begin-wait step advances, either it took the
`BEGIN` transition to `Done` — composing no reply and retaining the read
bytes in the buffer — or its buffer has been overwritten with one of the
three composed replies. -/
theorem serverIter_begin_reply_overwrites (sock : Nat) (buf0 guid : List Nat)
    (cap : Bool) (exp : Nat) (ws : List WriteRes) (rs : List ReadRes)
    (hk : (serverIter ⟨⟨sock, buf0, .WaitingForBegin, guid, cap, exp⟩, ws, rs⟩).k = .next) :
    ((serverIter ⟨⟨sock, buf0, .WaitingForBegin, guid, cap, exp⟩, ws, rs⟩).cfg.hs.step = .Done ∧
      (serverIter ⟨⟨sock, buf0, .WaitingForBegin, guid, cap, exp⟩, ws, rs⟩).cfg.hs.buffer =
        (read_command buf0 rs).buffer) ∨
    (serverIter ⟨⟨sock, buf0, .WaitingForBegin, guid, cap, exp⟩, ws, rs⟩).cfg.hs.buffer =
      strToCps "REJECTED EXTERNAL\r\n" ∨
    (serverIter ⟨⟨sock, buf0, .WaitingForBegin, guid, cap, exp⟩, ws, rs⟩).cfg.hs.buffer =
      strToCps "AGREE_UNIX_FD\r\n" ∨
    (serverIter ⟨⟨sock, buf0, .WaitingForBegin, guid, cap, exp⟩, ws, rs⟩).cfg.hs.buffer =
      strToCps "ERROR Unsupported command\r\n" := by
  simp only [serverIter] at hk ⊢
  cases hres : (read_command buf0 rs).res with
  | ok =>
    simp only [hres] at hk ⊢
    cases hpb : processBeginLine (read_command buf0 rs).buffer with
    | error e =>
      simp only [hpb] at hk
      exact absurd hk (by simp)
    | ok b =>
      rcases processBeginLine_ok_shape _ b hpb with rfl | rfl | rfl | rfl <;>
        simp only [hpb] at hk ⊢
      · exact Or.inl ⟨by trivial, by trivial⟩
      · exact Or.inr (Or.inl (by trivial))
      · exact Or.inr (Or.inr (Or.inl (by trivial)))
      · exact Or.inr (Or.inr (Or.inr (by trivial)))
  | ioErr e =>
    simp only [hres] at hk
    exact absurd hk (by simp)
  | starved =>
    simp only [hres] at hk
    exact absurd hk (by simp)

/-- Whenever the client's auth-reply step advances, its buffer has been
overwritten with the `NEGOTIATE_UNIX_FD` line — the read bytes are gone. -/
theorem clientIter_oauth_reply_overwrites (uid sock : Nat) (buf0 : List Nat)
    (g0 : Option (List Nat)) (cap : Bool) (ws : List WriteRes) (rs : List ReadRes)
    (hk : (clientIter uid ⟨⟨sock, buf0, .WaitOauth, g0, cap⟩, ws, rs⟩).k = .next) :
    (clientIter uid ⟨⟨sock, buf0, .WaitOauth, g0, cap⟩, ws, rs⟩).cfg.hs.buffer =
      strToCps "NEGOTIATE_UNIX_FD\r\n" ∧
    (clientIter uid ⟨⟨sock, buf0, .WaitOauth, g0, cap⟩, ws, rs⟩).cfg.hs.step =
      .SendingNegociateFd := by
  simp only [clientIter] at hk ⊢
  cases hres : (read_command buf0 rs).res with
  | ok =>
    simp only [hres] at hk ⊢
    cases hpo : processOauthLine (read_command buf0 rs).buffer with
    | error e =>
      simp only [hpo] at hk
      exact absurd hk (by simp)
    | ok g =>
      simp only [hpo] at hk ⊢
      exact ⟨by trivial, by trivial⟩
  | ioErr e =>
    simp only [hres] at hk
    exact absurd hk (by simp)
  | starved =>
    simp only [hres] at hk
    exact absurd hk (by simp)

/-- Whenever the client's fd-negotiation-reply step advances, its buffer
has been overwritten with the `BEGIN` line — the read bytes are gone. -/
theorem clientIter_negfd_reply_overwrites (uid sock : Nat) (buf0 : List Nat)
    (g0 : Option (List Nat)) (cap : Bool) (ws : List WriteRes) (rs : List ReadRes)
    (hk : (clientIter uid ⟨⟨sock, buf0, .WaitNegociateFd, g0, cap⟩, ws, rs⟩).k = .next) :
    (clientIter uid ⟨⟨sock, buf0, .WaitNegociateFd, g0, cap⟩, ws, rs⟩).cfg.hs.buffer =
      strToCps "BEGIN\r\n" ∧
    (clientIter uid ⟨⟨sock, buf0, .WaitNegociateFd, g0, cap⟩, ws, rs⟩).cfg.hs.step =
      .SendingBegin := by
  simp only [clientIter] at hk ⊢
  cases hres : (read_command buf0 rs).res with
  | ok =>
    simp only [hres] at hk ⊢
    by_cases h1 : (strToCps "AGREE_UNIX_FD").isPrefixOf (read_command buf0 rs).buffer = true
    · rw [if_pos h1]
      exact ⟨by trivial, by trivial⟩
    · rw [if_neg h1] at hk ⊢
      by_cases h2 : (strToCps "ERROR").isPrefixOf (read_command buf0 rs).buffer = true
      · rw [if_pos h2]
        exact ⟨by trivial, by trivial⟩
      · rw [if_neg h2] at hk
        simp at hk
  | ioErr e =>
    simp only [hres] at hk
    exact absurd hk (by simp)
  | starved =>
    simp only [hres] at hk
    exact absurd hk (by simp)

/-- `read_command` only ever returns successfully with a buffer that ends
in CRLF. -/
theorem read_command_ok_crlf : ∀ (rs : List ReadRes) (buf : List Nat),
    (read_command buf rs).res = .ok →
    ([13, 10] : List Nat).isSuffixOf (read_command buf rs).buffer = true := by
  intro rs
  induction rs with
  | nil =>
    intro buf h
    by_cases hs : ([13, 10] : List Nat).isSuffixOf buf = true
    · rw [read_command_stop buf [] hs]
      exact hs
    · rw [read_command_starved buf (by rwa [Bool.not_eq_true] at hs)] at h
      simp at h
  | cons r rs ih =>
    intro buf h
    by_cases hs : ([13, 10] : List Nat).isSuffixOf buf = true
    · rw [read_command_stop buf (r :: rs) hs]
      exact hs
    · cases r with
      | received b =>
        rw [read_command_step buf b rs (by rwa [Bool.not_eq_true] at hs)] at h ⊢
        exact ih (buf ++ b) h
      | rErr e =>
        rw [read_command_rerr buf e rs (by rwa [Bool.not_eq_true] at hs)] at h
        simp at h

theorem serverIter_done (c : ServerCfg) (h : c.hs.step = .Done) :
    serverIter c = ⟨.finished, c, []⟩ := by
  simp only [serverIter, h]

/-- C8 (amended): the line-accumulation loop stops only when the buffer
ends with CRLF — a complete line followed by a partial next line keeps the
machine reading — and every line-waiting step of either machine parses
only the first line of the buffer (the three line parsers are invariant
under bytes appended after the line terminator); whenever any of the four
line-waiting steps advances having composed a reply, the buffer has been
overwritten with that outbound message, so the pipelined bytes are
discarded and unavailable to the next line-waiting state; the sole
exception is the server's `BEGIN` transition to `Done`, which composes no
reply and retains the read bytes in the buffer, which the `Done` step
never reads.  Two end-to-end instances exhibit the discard on a concrete
pipelined delivery. -/
theorem c8_pipelined_discard :
    (∀ (rs : List ReadRes) (buf : List Nat),
      (read_command buf rs).res = .ok →
      ([13, 10] : List Nat).isSuffixOf (read_command buf rs).buffer = true) ∧
    (∀ (buf b : List Nat) (rs : List ReadRes),
      ([13, 10] : List Nat).isSuffixOf buf = false →
      read_command buf (.received b :: rs) = read_command (buf ++ b) rs) ∧
    (∀ (exp : Nat) (guid l r : List Nat), 10 ∈ l →
      processAuthLine exp guid (l ++ r) = processAuthLine exp guid l) ∧
    (∀ (l r : List Nat), 10 ∈ l →
      processBeginLine (l ++ r) = processBeginLine l) ∧
    (∀ (l r : List Nat), 10 ∈ l →
      processOauthLine (l ++ r) = processOauthLine l) ∧
    (∀ (sock : Nat) (buf0 guid : List Nat) (cap : Bool) (exp : Nat)
        (ws : List WriteRes) (rs : List ReadRes),
      (serverIter ⟨⟨sock, buf0, .WaitingForAuth, guid, cap, exp⟩, ws, rs⟩).k = .next →
      ((serverIter ⟨⟨sock, buf0, .WaitingForAuth, guid, cap, exp⟩, ws, rs⟩).cfg.hs.buffer =
          strToCps "OK " ++ guid ++ strToCps "\r\n" ∨
        (serverIter ⟨⟨sock, buf0, .WaitingForAuth, guid, cap, exp⟩, ws, rs⟩).cfg.hs.buffer =
          strToCps "REJECTED EXTERNAL\r\n" ∨
        (serverIter ⟨⟨sock, buf0, .WaitingForAuth, guid, cap, exp⟩, ws, rs⟩).cfg.hs.buffer =
          strToCps "ERROR Unsupported command\r\n") ∧
      ((serverIter ⟨⟨sock, buf0, .WaitingForAuth, guid, cap, exp⟩, ws, rs⟩).cfg.hs.step =
          .SendingAuthOK ∨
        (serverIter ⟨⟨sock, buf0, .WaitingForAuth, guid, cap, exp⟩, ws, rs⟩).cfg.hs.step =
          .SendingAuthError)) ∧
    (∀ (sock : Nat) (buf0 guid : List Nat) (cap : Bool) (exp : Nat)
        (ws : List WriteRes) (rs : List ReadRes),
      (serverIter ⟨⟨sock, buf0, .WaitingForBegin, guid, cap, exp⟩, ws, rs⟩).k = .next →
      ((serverIter ⟨⟨sock, buf0, .WaitingForBegin, guid, cap, exp⟩, ws, rs⟩).cfg.hs.step =
          .Done ∧
        (serverIter ⟨⟨sock, buf0, .WaitingForBegin, guid, cap, exp⟩, ws, rs⟩).cfg.hs.buffer =
          (read_command buf0 rs).buffer) ∨
      (serverIter ⟨⟨sock, buf0, .WaitingForBegin, guid, cap, exp⟩, ws, rs⟩).cfg.hs.buffer =
        strToCps "REJECTED EXTERNAL\r\n" ∨
      (serverIter ⟨⟨sock, buf0, .WaitingForBegin, guid, cap, exp⟩, ws, rs⟩).cfg.hs.buffer =
        strToCps "AGREE_UNIX_FD\r\n" ∨
      (serverIter ⟨⟨sock, buf0, .WaitingForBegin, guid, cap, exp⟩, ws, rs⟩).cfg.hs.buffer =
        strToCps "ERROR Unsupported command\r\n") ∧
    (∀ (uid sock : Nat) (buf0 : List Nat) (g0 : Option (List Nat)) (cap : Bool)
        (ws : List WriteRes) (rs : List ReadRes),
      (clientIter uid ⟨⟨sock, buf0, .WaitOauth, g0, cap⟩, ws, rs⟩).k = .next →
      (clientIter uid ⟨⟨sock, buf0, .WaitOauth, g0, cap⟩, ws, rs⟩).cfg.hs.buffer =
        strToCps "NEGOTIATE_UNIX_FD\r\n" ∧
      (clientIter uid ⟨⟨sock, buf0, .WaitOauth, g0, cap⟩, ws, rs⟩).cfg.hs.step =
        .SendingNegociateFd) ∧
    (∀ (uid sock : Nat) (buf0 : List Nat) (g0 : Option (List Nat)) (cap : Bool)
        (ws : List WriteRes) (rs : List ReadRes),
      (clientIter uid ⟨⟨sock, buf0, .WaitNegociateFd, g0, cap⟩, ws, rs⟩).k = .next →
      (clientIter uid ⟨⟨sock, buf0, .WaitNegociateFd, g0, cap⟩, ws, rs⟩).cfg.hs.buffer =
        strToCps "BEGIN\r\n" ∧
      (clientIter uid ⟨⟨sock, buf0, .WaitNegociateFd, g0, cap⟩, ws, rs⟩).cfg.hs.step =
        .SendingBegin) ∧
    (∀ (sock : Nat) (guid : List Nat) (cap : Bool) (exp w : Nat)
        (extra : List Nat) (ws : List WriteRes),
      w < 2 ^ 32 → w ≠ exp →
      (extra = [] ∨ ([13, 10] : List Nat).isSuffixOf extra = true) →
      serverIter ⟨⟨sock, [], .WaitingForAuth, guid, cap, exp⟩, ws,
          [.received (authLine w ++ extra)]⟩ =
        ⟨.next, ⟨⟨sock, strToCps "REJECTED EXTERNAL\r\n", .SendingAuthError, guid, cap, exp⟩,
          ws, []⟩, []⟩) ∧
    (∀ (uid sock : Nat) (g0 : Option (List Nat)) (cap : Bool)
        (extra : List Nat) (ws : List WriteRes),
      (extra = [] ∨ ([13, 10] : List Nat).isSuffixOf extra = true) →
      clientIter uid ⟨⟨sock, [], .WaitOauth, g0, cap⟩, ws,
          [.received (strToCps "OK g\r\n" ++ extra)]⟩ =
        ⟨.next, ⟨⟨sock, strToCps "NEGOTIATE_UNIX_FD\r\n", .SendingNegociateFd,
          some (strToCps "g"), cap⟩, ws, []⟩, []⟩) ∧
    (∀ c : ServerCfg, c.hs.step = .Done → serverIter c = ⟨.finished, c, []⟩) := by
  refine ⟨read_command_ok_crlf, read_command_step,
    processAuthLine_first_line, processBeginLine_first_line, processOauthLine_first_line,
    serverIter_auth_reply_overwrites, serverIter_begin_reply_overwrites,
    clientIter_oauth_reply_overwrites, clientIter_negfd_reply_overwrites,
    ?_, ?_, serverIter_done⟩
  · intro sock guid cap exp w extra ws hw hne hsuf
    have hsuffix : ([13, 10] : List Nat).isSuffixOf (authLine w ++ extra) = true := by
      rcases hsuf with rfl | hs
      · rw [List.append_nil]
        exact authLine_endsCRLF w
      · exact isSuffixOf_extend _ _ _ hs
    have h1 : read_command [] [ReadRes.received (authLine w ++ extra)] =
        ⟨.ok, authLine w ++ extra, []⟩ := by
      rw [read_command_step [] (authLine w ++ extra) [] (by decide), List.nil_append,
        read_command_stop _ [] hsuffix]
    have h2 : processAuthLine exp guid (authLine w ++ extra) =
        .ok (strToCps "REJECTED EXTERNAL\r\n", .SendingAuthError) := by
      rw [processAuthLine_authLine exp w guid extra hw, if_neg hne]
    simp only [serverIter, h1, h2]
  · intro uid sock g0 cap extra ws hsuf
    have hsuffix : ([13, 10] : List Nat).isSuffixOf (strToCps "OK g\r\n" ++ extra) = true := by
      rcases hsuf with rfl | hs
      · decide
      · exact isSuffixOf_extend _ _ _ hs
    have h1 : read_command [] [ReadRes.received (strToCps "OK g\r\n" ++ extra)] =
        ⟨.ok, strToCps "OK g\r\n" ++ extra, []⟩ := by
      rw [read_command_step [] (strToCps "OK g\r\n" ++ extra) [] (by decide), List.nil_append,
        read_command_stop _ [] hsuffix]
    have hre : strToCps "OK g\r\n" ++ extra = strToCps "OK g\r" ++ 10 :: extra := by
      simp [strToCps]
    have h2 : readLine (strToCps "OK g\r\n" ++ extra) = .ok (strToCps "OK g\r\n") := by
      rw [hre, readLine_of_line (strToCps "OK g\r") extra (by decide) (by decide)]
      rfl
    have h3 : processOauthLine (strToCps "OK g\r\n" ++ extra) = .ok (strToCps "g") := by
      unfold processOauthLine
      rw [h2]
      decide
    simp only [clientIter, h1, h3]

/-- Witness for C8's amended theorem at a concrete pipelined input. -/
theorem c8_witness :
    serverIter ⟨⟨0, [], .WaitingForAuth, strToCps "g", false, 1000⟩, [],
        [.received (authLine 1001 ++ strToCps "BEGIN\r\n")]⟩ =
      ⟨.next, ⟨⟨0, strToCps "REJECTED EXTERNAL\r\n", .SendingAuthError, strToCps "g",
        false, 1000⟩, [], []⟩, []⟩ :=
  c8_pipelined_discard.2.2.2.2.2.2.2.2.2.1 0 (strToCps "g") false 1000 1001
    (strToCps "BEGIN\r\n") []
    (by norm_num) (by norm_num) (Or.inr (by decide))

/-- C8 counterexample: in `WaitingForBegin`, a `BEGIN` line delivered
together with a pipelined `NEGOTIATE_UNIX_FD` line moves the server to
`Done` without overwriting the buffer with any outbound message — the
buffer still holds both lines (and the pipelined request is silently
lost), contradicting the claim that every line-waiting state overwrites
the buffer with the next outbound message. -/
theorem c8_counterexample :
    serverIter ⟨⟨0, [], .WaitingForBegin, strToCps "g", false, 1000⟩, [],
        [.received (strToCps "BEGIN\r\nNEGOTIATE_UNIX_FD\r\n")]⟩ =
      ⟨.next, ⟨⟨0, strToCps "BEGIN\r\nNEGOTIATE_UNIX_FD\r\n", .Done, strToCps "g",
        false, 1000⟩, [], []⟩, []⟩ ∧
    strToCps "BEGIN\r\nNEGOTIATE_UNIX_FD\r\n" ≠ [] := by
  decide

end Zbus
